import Mathlib

/-!
Verification development for the `transcoder` package (Django app):
a shallow embedding in Lean 4 of the schedule evaluator (`models.Channel.is_active_now`),
the command builder (`ffmpeg_runner.FFmpegJobConfig`), the retention pruner and the
reconciliation loop (`management/commands/transcoder_enforcer.Command`), together with
theorems about the behaviour of those functions.

Modelling conventions:
- Python strings are Lean `String`s; the handful of `str` operations the code uses
  (`strip`, substring containment via `in`, `startswith`, `str.format` with the
  `{channel}`/`{date}`/`{time}` placeholders, `re.search` for the one fixed regex)
  are implemented below on `List Char` so that all definitions compute by kernel
  reduction.
- A local wall-clock instant (`datetime.datetime`, naive) is a pair of an absolute
  day index and a seconds-of-day value; `weekday()` (Monday = 0 .. Sunday = 6) is the
  day index mod 7 (the epoch day 0 is taken to be a Monday), `datetime.time` values
  are seconds-of-day, `datetime.date` values are day indices, and datetime
  subtraction is arithmetic on absolute seconds.  `strftime` renderings that only
  appear inside the record-output path template are abstracted to an injective
  rendering of the day/seconds numbers (no claim depends on the digit format).
- Filesystem state is an explicit input: the recorded-segment scan
  (`_iter_recording_segments` and the identical scan in `_auto_delete_for_channel`)
  is modelled as receiving the list of `(timestamp, path)` pairs that the
  scan-and-parse step produces (timestamp parsed from the filename, or mtime on
  parse failure), and then sorting it exactly as the source does.  Directory
  creation and file writes/deletes are pure outputs (the playlist lines, the list
  of deleted paths).
- Django model instances are records; Python dynamic attribute access
  `getattr(obj, name, default)` on a `TimeShiftProfile` is modelled by a total
  lookup over the attributes that class actually defines, so reading the
  (nonexistent) `delay_seconds` attribute yields the default, exactly as in Python.
-/

/-! ## Python string helpers (List Char based, kernel-computable) -/

/-- Python `a.startswith(b)` / list prefix test. -/
def isPrefixList : List Char → List Char → Bool
  | [], _ => true
  | _ :: _, [] => false
  | p :: ps, c :: cs => p == c && isPrefixList ps cs

/-- Substring scan: does `pat` occur in the list?  (Python `pat in s`.) -/
def containsList (pat : List Char) : List Char → Bool
  | [] => isPrefixList pat []
  | c :: cs => isPrefixList pat (c :: cs) || containsList pat cs

/-- Python `pat in s` on strings. -/
def pyContains (s pat : String) : Bool := containsList pat.data s.data

/-- Python `s.startswith(pre)`. -/
def pyStartsWith (s pre : String) : Bool := isPrefixList pre.data s.data

/-- ASCII whitespace stripped by Python `str.strip()`. -/
def isSpaceChar (c : Char) : Bool :=
  c == ' ' || c == '\t' || c == '\n' || c == '\r' || c == '\x0b' || c == '\x0c'

/-- Python `s.strip()`. -/
def pyTrim (s : String) : String :=
  ⟨((s.data.dropWhile isSpaceChar).reverse.dropWhile isSpaceChar).reverse⟩

/-- Replace every (non-overlapping, left-to-right) occurrence of `pat` by `rep`,
with explicit fuel to keep the recursion structural.  Python `str.replace`. -/
def replaceFuel : Nat → List Char → List Char → List Char → List Char
  | 0, s, _, _ => s
  | _ + 1, [], _, _ => []
  | n + 1, c :: t, pat, rep =>
    if pat ≠ [] && isPrefixList pat (c :: t) then
      rep ++ replaceFuel n (List.drop pat.length (c :: t)) pat rep
    else
      c :: replaceFuel n t pat rep

/-- Python `s.replace(pat, rep)` (for nonempty `pat`, which is the only use here). -/
def pyReplace (s pat rep : String) : String :=
  ⟨replaceFuel s.data.length s.data pat.data rep.data⟩

/-- Digits of a decimal numeral to a `Nat` (Python `int(...)` on a digit string). -/
def digitsToNat (l : List Char) : Nat :=
  l.foldl (fun n c => n * 10 + (c.toNat - 48)) 0

/-- `str.format` restricted to the `{channel}`, `{date}`, `{time}` placeholders
used by the recording path templates (unknown-placeholder `KeyError`s are outside
the model: the templates the code works with contain only these three). -/
def formatTemplate (tmpl channel date time : String) : String :=
  pyReplace (pyReplace (pyReplace tmpl "{channel}" channel) "{date}" date) "{time}" time

/-- `pathlib.PurePosixPath.is_absolute`. -/
def isAbsolutePath (p : String) : Bool := pyStartsWith p "/"

/-- `Path(a) / b` for the (relative) `b`s joined in this code. -/
def joinPath (a b : String) : String := a ++ "/" ++ b

/-! ## Local date-time model -/

/-- A naive local wall-clock instant: absolute day index (day 0 is a Monday)
plus seconds within the day. -/
structure LocalDT where
  day : Nat
  tod : Nat
deriving DecidableEq, Repr

/-- `datetime.weekday()`: Monday = 0 .. Sunday = 6. -/
def LocalDT.weekday (t : LocalDT) : Nat := t.day % 7

/-- Absolute seconds, the carrier of naive datetime subtraction/comparison. -/
def LocalDT.toSeconds (t : LocalDT) : Int := (t.day : Int) * 86400 + (t.tod : Int)

/-- Injective stand-in for `strftime("%Y%m%d")` (only used inside path strings). -/
def LocalDT.dateStr (t : LocalDT) : String := toString t.day

/-- Injective stand-in for `strftime("%H%M%S")` (only used inside path strings). -/
def LocalDT.timeStr (t : LocalDT) : String := toString t.tod

/-! ## Data model: `transcoder.models` -/

/-- `models.TimeShiftProfile`: the fields the core reads.  Note the delay is
stored in MINUTES (`delay_minutes`); the class defines no `delay_seconds`
attribute. -/
structure TimeShiftProfile where
  enabled : Bool
  delay_minutes : Nat
  output_udp_url : String
deriving DecidableEq, Repr

namespace TimeShiftProfile

/-- Python `getattr(profile, name, default)` for an integer-valued read on a
`TimeShiftProfile`.  The only integer attribute the class defines is
`delay_minutes`; any other name (in particular `delay_seconds`) falls back to
the default, as `getattr` does. -/
def getattrInt (p : TimeShiftProfile) (name : String) (dflt : Int) : Int :=
  if name = "delay_minutes" then (p.delay_minutes : Int) else dflt

/-- Python `getattr(profile, name, default)` for a boolean-valued read:
the class's only boolean attribute is `enabled`. -/
def getattrBool (p : TimeShiftProfile) (name : String) (dflt : Bool) : Bool :=
  if name = "enabled" then p.enabled else dflt

end TimeShiftProfile

/-- `int(getattr(profile, "delay_seconds", 0) or 0)` as it appears (verbatim) in
`ffmpeg_runner.build_command` and in the enforcer; `profile` may be `None`. -/
def readDelaySeconds (po : Option TimeShiftProfile) : Int :=
  let raw := match po with
    | none => 0                       -- getattr(None, "delay_seconds", 0) = 0
    | some p => TimeShiftProfile.getattrInt p "delay_seconds" 0
  if raw = 0 then 0 else raw          -- `or 0` (0 is falsy)

/-- `bool(profile and getattr(profile, "enabled", False))`. -/
def readProfileEnabled (po : Option TimeShiftProfile) : Bool :=
  match po with
  | none => false
  | some p => TimeShiftProfile.getattrBool p "enabled" false

/-- `models.Channel`: the configuration fields the schedule evaluator, the
command builder, the pruner and the enforcer read.  `timeshift_profile` is the
one-to-one related `TimeShiftProfile` (or `none` when the channel has none);
`start_time`/`end_time` are seconds-of-day, `date_from`/`date_to` day indices.
(Of the twice-declared retention fields in the class body, the later
declaration wins in Python, so `auto_delete_after_days` is a plain, non-null
integer.) -/
structure Channel where
  id : Nat
  name : String
  enabled : Bool
  input_type : String
  input_url : String
  output_type : String
  output_target : String
  record_enabled : Bool
  recording_path_template : String
  recording_segment_minutes : Nat
  auto_delete_enabled : Bool
  auto_delete_after_segments : Option Nat
  auto_delete_after_days : Nat
  video_mode : String
  audio_mode : String
  video_codec : String
  audio_codec : String
  monday : Bool
  tuesday : Bool
  wednesday : Bool
  thursday : Bool
  friday : Bool
  saturday : Bool
  sunday : Bool
  start_time : Option Nat
  end_time : Option Nat
  date_from : Option Nat
  date_to : Option Nat
  timeshift_profile : Option TimeShiftProfile
deriving DecidableEq, Repr

/-- The `weekday_flags` list of `is_active_now` (index: Monday = 0 .. Sunday = 6). -/
def weekdayFlags (c : Channel) : List Bool :=
  [c.monday, c.tuesday, c.wednesday, c.thursday, c.friday, c.saturday, c.sunday]

/-- `Channel.is_active_now(now)`: the weekly/date-ranged schedule evaluator. -/
def Channel.is_active_now (c : Channel) (now : LocalDT) : Bool :=
  if !c.enabled then false
  else
    let localDate := now.day
    let localTime := now.tod
    let weekday := now.weekday
    -- Use 00:00 as default if times are not set
    let startTime := c.start_time.getD 0
    let endTime := c.end_time.getD 0
    -- Date range check
    if (match c.date_from with | some df => decide (localDate < df) | none => false) then false
    else if (match c.date_to with | some dt => decide (dt < localDate) | none => false) then false
    -- Weekday check via booleans
    else if !((weekdayFlags c).getD weekday false) then false
    -- Time window semantics
    else if startTime = endTime then true            -- full day
    else if startTime < endTime then decide (startTime ≤ localTime ∧ localTime < endTime)
    else decide (startTime ≤ localTime ∨ localTime < endTime)  -- overnight window

/-! ## Settings and recorded segments -/

/-- The Django settings the core reads: `MEDIA_ROOT` and
`PLAYBACK_PLAYLIST_WINDOW_SECONDS` (read with default `3 * 3600` when unset;
a concrete `Settings` value carries the value the `getattr` read produces). -/
structure Settings where
  mediaRoot : String
  playbackWindowSeconds : Int
deriving DecidableEq, Repr

/-- The default playback lookback window, `3 * 3600` seconds. -/
def defaultPlaybackWindowSeconds : Int := 3 * 3600

/-- One recorded TS segment as the filesystem scan yields it: the timestamp
parsed from the `<channel>_YYYYMMDD-HHMMSS.ts` filename (or the file's mtime on
parse failure), in absolute seconds, plus the file path. -/
structure SegmentFile where
  ts : Int
  path : String
deriving DecidableEq, Repr

/-- `items.sort(key=lambda x: x[0])`: stable ascending sort by timestamp
(insertion sort is stable, like Python's sort). -/
def sortByTs (l : List SegmentFile) : List SegmentFile :=
  List.insertionSort (fun a b => a.ts ≤ b.ts) l

/-- `_iter_recording_segments`: the scan-and-parse step is the `segs` input
(see the module conventions); the source then sorts by timestamp. -/
def iterRecordingSegments (segs : List SegmentFile) : List SegmentFile :=
  sortByTs segs

/-! ## Command builder: `transcoder.ffmpeg_runner.FFmpegJobConfig` -/

/-- The two job purposes the enforcer uses (`JobPurpose.RECORD` / `PLAYBACK`). -/
inductive Purpose where
  | record
  | playback
deriving DecidableEq, Repr

/-- Failures of `build_command`: `ValueError` (invalid configuration) and
`FileNotFoundError` (recorded data not ready yet). -/
inductive BuildErr where
  | valueError (msg : String)
  | notReady (msg : String)
deriving DecidableEq, Repr

/-- The fixed prologue `["ffmpeg", "-y", "-hide_banner", "-loglevel", "warning"]`. -/
def ffmpegBase : List String := ["ffmpeg", "-y", "-hide_banner", "-loglevel", "warning"]

/-- `_build_live_input_args`. -/
def buildLiveInputArgs (chan : Channel) (st : Settings) : List String :=
  let rawInputUrl := pyTrim chan.input_url
  if chan.input_type == "internal_gen" then
    ["-re",
     "-f", "lavfi", "-i", "testsrc2=size=1280x720:rate=25",
     "-f", "lavfi", "-i", "sine=frequency=1000:sample_rate=48000",
     "-shortest",
     "-map", "0:v:0",
     "-map", "1:a:0"]
  else if chan.input_type == "file" then
    let inPath := if isAbsolutePath rawInputUrl then rawInputUrl
                  else joinPath st.mediaRoot rawInputUrl
    ["-i", inPath]
  else if chan.input_type == "udp_multicast" then
    let inputUrl :=
      if pyContains rawInputUrl "fifo_size=" then rawInputUrl
      else rawInputUrl ++ (if pyContains rawInputUrl "?" then "&" else "?")
             ++ "fifo_size=1000000&overrun_nonfatal=1"
    ["-i", inputUrl]
  else
    ["-i", rawInputUrl]

/-- The video-codec arguments (this block appears verbatim both in the record
branch and in the live-playback branch of `build_command`). -/
def videoCodecArgs (chan : Channel) : List String :=
  let isInternalGen := chan.input_type == "internal_gen"
  if !isInternalGen && chan.video_mode == "copy" then
    ["-c:v", "copy"]
  else
    ["-c:v", if chan.video_codec = "" then "libx264" else chan.video_codec]
      ++ (if isInternalGen then
            ["-preset", "veryfast",
             "-tune", "zerolatency",
             "-pix_fmt", "yuv420p",
             "-g", "50",
             "-x264-params", "repeat-headers=1"]
          else [])

/-- The audio-codec arguments (likewise duplicated verbatim in the source). -/
def audioCodecArgs (chan : Channel) : List String :=
  let isInternalGen := chan.input_type == "internal_gen"
  if !isInternalGen && chan.audio_mode == "copy" then
    ["-c:a", "copy"]
  else if chan.audio_mode == "disable" then
    ["-an"]
  else
    ["-c:a", if chan.audio_codec = "" then "aac" else chan.audio_codec]
      ++ (if isInternalGen then ["-b:a", "128k", "-ac", "2"] else [])

/-- `_build_record_output`: segmented TS output under MEDIA_ROOT
(the `mkdir` side effect is not modelled). -/
def recordOutputArgs (chan : Channel) (now : LocalDT) (st : Settings) : List String :=
  let dateStr := now.dateStr
  let baseDirStr := formatTemplate chan.recording_path_template chan.name dateStr now.timeStr
  let baseDir := if isAbsolutePath baseDirStr then baseDirStr else joinPath st.mediaRoot baseDirStr
  let segmentSeconds := chan.recording_segment_minutes * 60
  let segmentPattern := joinPath baseDir (chan.name ++ "_%Y%m%d-%H%M%S.ts")
  ["-f", "segment",
   "-segment_time", toString segmentSeconds,
   "-reset_timestamps", "1",
   "-strftime", "1",
   segmentPattern]

/-- One component of `re.search(r"udp://(\d{1,3}\.){3}\d{1,3}", ...)`:
`\d{1,3}` followed by a literal dot.  With a maximal digit run of length `L`,
the component matches iff `1 ≤ L ≤ 3` and the next character is a dot (for
`L > 3` every backtracking choice leaves a digit where the dot must be). -/
def matchOctetDot (cs : List Char) : Option (List Char × List Char) :=
  let ds := cs.takeWhile Char.isDigit
  if 1 ≤ ds.length ∧ ds.length ≤ 3 then
    match cs.drop ds.length with
    | '.' :: rest => some (ds ++ ['.'], rest)
    | _ => none
  else none

/-- Final `\d{1,3}` of the dotted-quad pattern (greedy, nothing follows). -/
def matchFinalOctet (cs : List Char) : Option (List Char) :=
  let ds := cs.takeWhile Char.isDigit
  if ds.length = 0 then none else some (ds.take 3)

/-- `(\d{1,3}\.){3}\d{1,3}` at the start of `cs`; returns the matched text. -/
def matchQuad (cs : List Char) : Option (List Char) :=
  match matchOctetDot cs with
  | none => none
  | some (a, r1) =>
    match matchOctetDot r1 with
    | none => none
    | some (b, r2) =>
      match matchOctetDot r2 with
      | none => none
      | some (c, r3) => (matchFinalOctet r3).map (fun d => a ++ b ++ c ++ d)

/-- `re.search(r"udp://(\d{1,3}\.){3}\d{1,3}", url)`: leftmost match,
returning `group(0)` (which includes the `udp://`). -/
def searchUdpQuad : List Char → Option (List Char)
  | [] => none
  | c :: cs =>
    match (if isPrefixList "udp://".data (c :: cs) then matchQuad ((c :: cs).drop 6) else none) with
    | some q => some ("udp://".data ++ q)
    | none => searchUdpQuad cs

/-- The playback output-URL normalization of `build_command`: append
`pkt_size=1316` to a UDP URL lacking it, then append `ttl=16` when the URL
contains a dotted-quad `udp://` address whose first octet is in the multicast
range 224..239 and no `ttl=` is present. -/
def normalizeUdpOutput (url0 : String) : String :=
  let url1 :=
    if pyStartsWith url0 "udp://" && !pyContains url0 "pkt_size=" then
      url0 ++ (if pyContains url0 "?" then "&" else "?") ++ "pkt_size=1316"
    else url0
  match searchUdpQuad url1.data with
  | some quad =>
    if !pyContains url1 "ttl=" then
      -- ip = group(0).replace("udp://", ""); the quad body is digits and dots,
      -- so the replace strips exactly the 6-character prefix
      let ip := quad.drop 6
      let firstOctet := digitsToNat (ip.takeWhile Char.isDigit)  -- int(ip.split(".")[0])
      if 224 ≤ firstOctet ∧ firstOctet ≤ 239 then
        url1 ++ (if pyContains url1 "?" then "&" else "?") ++ "ttl=16"
      else url1
    else url1
  | none => url1

/-- `shlex.quote`-safe characters: ASCII `\w` plus `@ % + = : , . - ` and the slash. -/
def shlexSafeChar (c : Char) : Bool :=
  c.isAlphanum || c == '_' || c == '@' || c == '%' || c == '+' || c == '='
    || c == ':' || c == ',' || c == '.' || c == '/' || c == '-'

/-- A single-quote character, kept out of the source text as a numeral. -/
def squote : String := (Char.ofNat 39).toString

/-- `shlex.quote(s)`. -/
def shlexQuote (s : String) : String :=
  if s = "" then squote ++ squote
  else if s.data.all shlexSafeChar then s
  else squote ++ pyReplace s squote (squote ++ "\x22" ++ squote ++ "\x22" ++ squote) ++ squote

/-- The fixed MPEG-TS output tail shared by both playback branches. -/
def mpegtsOutputArgs (out : String) : List String :=
  ["-f", "mpegts",
   "-mpegts_flags", "+resend_headers",
   "-muxdelay", "0",
   "-muxpreload", "0",
   out]

/-- `_build_playback_concat_playlist`: the finite concat window ending at the
delayed target time.  Returns the playlist path together with the lines written
to it (the `write_text` side effect made explicit); fails with
`FileNotFoundError` when no segment lies in `[target - window, target]`. -/
def buildPlaybackConcatPlaylist (chan : Channel) (segs : List SegmentFile)
    (now : LocalDT) (delaySeconds : Int) (st : Settings) :
    Except BuildErr (String × List String) :=
  let windowSeconds := st.playbackWindowSeconds
  let nowAbs := now.toSeconds
  let target := nowAbs - delaySeconds
  let startTs := target - windowSeconds
  let endTs := target
  let segments := iterRecordingSegments segs
  let chosen := (segments.filter (fun s => decide (startTs ≤ s.ts) && decide (s.ts ≤ endTs))).map
    SegmentFile.path
  if chosen.isEmpty then
    .error (.notReady ("No TS segments found for playback yet for channel "
      ++ chan.name ++ "; recording may still be warming up; enforcer will retry."))
  else
    let outDir := joinPath (joinPath st.mediaRoot "playlists") ("channel_" ++ toString chan.id)
    let playlistPath := joinPath outDir "concat.txt"
    let lines := chosen.map (fun p => "file " ++ shlexQuote p)
    .ok (playlistPath, lines)

/-- `FFmpegJobConfig.build_command` for the given channel and purpose. -/
def buildCommand (chan : Channel) (purpose : Purpose) (segs : List SegmentFile)
    (now : LocalDT) (st : Settings) : Except BuildErr (List String) :=
  match purpose with
  | .record =>
    .ok (ffmpegBase ++ buildLiveInputArgs chan st
          ++ videoCodecArgs chan ++ audioCodecArgs chan
          ++ recordOutputArgs chan now st)
  | .playback =>
    if chan.output_type ≠ "udp_ts" ∨ pyTrim chan.output_target = "" then
      .error (.valueError
        "Channel output must be UDP TS and output_target must be set for playback.")
    else
      let outputUdpUrl := normalizeUdpOutput (pyTrim chan.output_target)
      let profile := chan.timeshift_profile
      let enabled := readProfileEnabled profile
      let delaySeconds := readDelaySeconds profile
      if !enabled || delaySeconds ≤ 0 then
        -- LIVE MODE: no recording required, direct restream
        .ok (ffmpegBase ++ buildLiveInputArgs chan st
              ++ videoCodecArgs chan ++ audioCodecArgs chan
              ++ mpegtsOutputArgs outputUdpUrl)
      else if !enabled then
        -- dead guard kept from the source (unreachable after the live check)
        .error (.valueError "Time-shift profile is not enabled for delayed playback.")
      else if delaySeconds > 24 * 60 * 60 then
        .error (.valueError "delay_seconds must be at most 86400 (24h).")
      else
        match buildPlaybackConcatPlaylist chan segs now delaySeconds st with
        | .error e => .error e
        | .ok (playlistPath, _) =>
          .ok (ffmpegBase
                ++ ["-re", "-f", "concat", "-safe", "0", "-i", playlistPath,
                    "-c:v", "copy", "-c:a", "copy"]
                ++ mpegtsOutputArgs outputUdpUrl)

/-! ## Retention pruner: `Command._auto_delete_for_channel` -/

/-- The protected cutoff of `_auto_delete_for_channel`:
`now - (delay_seconds + window_seconds + segment_minutes*60)`, where
`delay_seconds` is the enforcer's `getattr(profile, "delay_seconds", 0)` read
on an enabled profile (0 otherwise). -/
def protectAfterOf (chan : Channel) (now : LocalDT) (st : Settings) : Int :=
  let delaySeconds :=
    match chan.timeshift_profile with
    | some p =>
      if TimeShiftProfile.getattrBool p "enabled" false then readDelaySeconds (some p) else 0
    | none => 0
  let protectSeconds :=
    delaySeconds + st.playbackWindowSeconds + (chan.recording_segment_minutes : Int) * 60
  now.toSeconds - protectSeconds

/-- `Command._auto_delete_for_channel`: returns the set of deleted segment
paths (the source collects `to_delete` as a set and unlinks each member;
membership and cardinality are what is modelled, the unlink order is not). -/
def autoDeleteForChannel (chan : Channel) (segs : List SegmentFile)
    (now : LocalDT) (st : Settings) : List String :=
  let protectAfter := protectAfterOf chan now st
  if segs.isEmpty then []
  else
    let items := sortByTs segs
    -- Age-based deletion
    let ageDel : List String :=
      if chan.auto_delete_after_days ≠ 0 then
        let cutoff := now.toSeconds - (chan.auto_delete_after_days : Int) * 86400
        (items.filter (fun s => decide (s.ts < cutoff) && decide (s.ts < protectAfter))).map
          SegmentFile.path
      else []
    -- Count-based deletion (keep last N)
    let countDel : List String :=
      match chan.auto_delete_after_segments with
      | some keepN =>
        if keepN ≠ 0 then
          if 0 < keepN ∧ keepN < items.length then
            ((items.take (items.length - keepN)).filter
                (fun s => decide (s.ts < protectAfter))).map SegmentFile.path
          else []
        else []
      | none => []
    (ageDel ++ countDel).dedup

/-! ## Enforcer: `management/commands/transcoder_enforcer.Command.handle` -/

/-- `(purpose, channel_id)`. -/
abbrev JobKey := Purpose × Nat

/-- A tracked subprocess handle: its pid and whether `poll()` still returns
`None` (alive). -/
structure Proc where
  pid : Nat
  alive : Bool
deriving DecidableEq, Repr

/-- The enforcer's mutable state across ticks: the `running` table, the
`self._last_cmd` table and a pid source for spawns. -/
structure EnfState where
  running : List (JobKey × Proc)
  lastCmd : List (JobKey × List String)
  nextPid : Nat
deriving DecidableEq, Repr

/-- Observable process-lifecycle actions of one tick. -/
inductive Event where
  | spawnEv (key : JobKey) (cmd : List String)
  | termEv (key : JobKey)
deriving DecidableEq, Repr

/-- Association-list lookup (Python dict `get`). -/
def alookup [DecidableEq α] : List (α × β) → α → Option β
  | [], _ => none
  | (k, v) :: t, k2 => if k = k2 then some v else alookup t k2

/-- Association-list insert-or-update (Python dict `d[k] = v`; a dict never
holds a key twice, so the first matching entry is the only one). -/
def aupsert [DecidableEq α] : List (α × β) → α → β → List (α × β)
  | [], k, v => [(k, v)]
  | (k2, v2) :: t, k, v => if k2 = k then (k, v) :: t else (k2, v2) :: aupsert t k v

/-- Association-list delete (Python `del d[k]`). -/
def aerase [DecidableEq α] : List (α × β) → α → List (α × β)
  | [], _ => []
  | (k2, v2) :: t, k => if k2 = k then t else (k2, v2) :: aerase t k

/-- `has_udp_out = (chan.output_type == "udp_ts") and (chan.output_target or "").strip()`. -/
def hasUdpOut (c : Channel) : Bool :=
  c.output_type == "udp_ts" && pyTrim c.output_target ≠ ""

/-- The per-channel step of the desired-jobs computation in `Command.handle`
(lines building `desired_jobs`). -/
def desireChannel (now : LocalDT) (acc : List (JobKey × String)) (chan : Channel) :
    List (JobKey × String) :=
  if !chan.is_active_now now then acc
  else
    let profile := chan.timeshift_profile
    let enabledProf := readProfileEnabled profile
    let delaySeconds := readDelaySeconds profile
    let udp := hasUdpOut chan
    -- LIVE mode (delay 0 or profile missing/disabled): playback only (no recording)
    let acc1 :=
      if udp && (!enabledProf || decide (delaySeconds ≤ 0)) then
        aupsert acc (Purpose.playback, chan.id) (chan.name ++ " [LIVE playback]")
      else acc
    -- TIME-SHIFT mode (delay > 0): record + delayed playback
    if enabledProf && decide (0 < delaySeconds) then
      let acc2 := aupsert acc1 (Purpose.record, chan.id) (chan.name ++ " [record]")
      if udp then aupsert acc2 (Purpose.playback, chan.id) (chan.name ++ " [timeshift playback]")
      else acc2
    else acc1

/-- The desired job dictionary of one tick, over the enabled-channel snapshot. -/
def computeDesired (chans : List Channel) (now : LocalDT) : List (JobKey × String) :=
  chans.foldl (desireChannel now) []

/-- `desired_cmd` (and the analogous fresh build): find the key's channel in
the snapshot and build, with any build exception turned into `None`.
(The source's `next(c for c in channels ...)` would raise `StopIteration` for a
key without a channel; desired keys always come from the snapshot, so the
`none` result of `find?` is unreachable there and is mapped to a skip.) -/
def buildCmdOpt (chans : List Channel) (segs : List SegmentFile) (now : LocalDT)
    (st : Settings) (key : JobKey) : Option (List String) :=
  match chans.find? (fun c => c.id == key.2) with
  | none => none
  | some c =>
    match buildCommand c key.1 segs now st with
    | .ok cmd => some cmd
    | .error _ => none

/-- The fresh-start tail of the start loop: build the command and spawn
(OS-level spawn failures are outside the model, a spawn always yields a live
process with a fresh pid). -/
def startFresh (chans : List Channel) (segs : List SegmentFile) (now : LocalDT)
    (st : Settings) (s : EnfState) (es : List Event) (key : JobKey) :
    EnfState × List Event :=
  match buildCmdOpt chans segs now st key with
  | none => (s, es)     -- NotReady / build error: log and retry next tick
  | some cmd =>
    ({ running := aupsert s.running key ⟨s.nextPid, true⟩,
       lastCmd := aupsert s.lastCmd key cmd,
       nextPid := s.nextPid + 1 },
     es ++ [Event.spawnEv key cmd])

/-- One iteration of the start loop of `Command.handle` for one desired key:
drift check for a live playback process (Python truthiness of the command
lists included), else fresh start. -/
def startStep (chans : List Channel) (segs : List SegmentFile) (now : LocalDT)
    (st : Settings) (acc : EnfState × List Event) (key : JobKey) :
    EnfState × List Event :=
  let (s, es) := acc
  let isAlive := match alookup s.running key with
    | some p => p.alive
    | none => false
  if isAlive then
    match key.1 with
    | Purpose.record => (s, es)        -- only playback is drift-checked
    | Purpose.playback =>
      match buildCmdOpt chans segs now st key with
      | none => (s, es)                -- cannot build now: keep running, retry next poll
      | some dc =>
        if dc.isEmpty then (s, es)     -- falsy desired_cmd: treated like None
        else
          match alookup s.lastCmd key with
          | some lc =>
            if lc.isEmpty then
              -- last_cmd falsy: record current desired cmd (first time), keep running
              ({ s with lastCmd := aupsert s.lastCmd key dc }, es)
            else if dc = lc then (s, es)
            else
              -- command changed (e.g. output_target updated): terminate, then restart below
              startFresh chans segs now st { s with running := aerase s.running key }
                (es ++ [Event.termEv key]) key
          | none =>
            ({ s with lastCmd := aupsert s.lastCmd key dc }, es)
  else startFresh chans segs now st s es key

/-- One reconciliation tick of `Command.handle` (steps: snapshot enabled
channels, compute desired jobs, start/restart loop, stop-undesired loop),
returning the successor state and the spawn/terminate actions in program
order.  The auto-delete pass touches no process and is modelled separately by
`autoDeleteForChannel`. -/
def tickEnforcer (channelsAll : List Channel) (segs : List SegmentFile)
    (now : LocalDT) (st : Settings) (s0 : EnfState) : EnfState × List Event :=
  let chans := channelsAll.filter (fun c => c.enabled)
  let desired := computeDesired chans now
  let dkeys := desired.map Prod.fst
  let stepped := desired.foldl (fun acc kd => startStep chans segs now st acc kd.1) (s0, [])
  let s := stepped.1
  let es := stepped.2
  -- Stop jobs no longer desired
  let stopEvents := (s.running.filter (fun kp => !dkeys.contains kp.1 && kp.2.alive)).map
    (fun kp => Event.termEv kp.1)
  let running2 := s.running.filter (fun kp => dkeys.contains kp.1)
  ({ s with running := running2 }, es ++ stopEvents)

/-- The enabled-channel snapshot of a tick (`Channel.objects.filter(enabled=True)`). -/
def enabledChans (channelsAll : List Channel) : List Channel :=
  channelsAll.filter (fun c => c.enabled)

/-- The start-loop fold of one tick, named for the proofs below
(definitionally the fold inside `tickEnforcer`). -/
def tickFold (channelsAll : List Channel) (segs : List SegmentFile) (now : LocalDT)
    (st : Settings) (s0 : EnfState) : EnfState × List Event :=
  (computeDesired (enabledChans channelsAll) now).foldl
    (fun acc kd => startStep (enabledChans channelsAll) segs now st acc kd.1) (s0, [])

/-- The per-key quiescence invariant of the reconciliation loop: a desired key
is quiescent in a state when its start-loop iteration is a no-op — either a
live process whose recorded playback vector already matches the freshly built
one (or whose build fails / is a record job), or no live process and a failing
build. -/
def GoodKey (chans : List Channel) (segs : List SegmentFile) (now : LocalDT) (st : Settings)
    (k : JobKey) (s : EnfState) : Prop :=
  (∀ p, alookup s.running k = some p → p.alive = true → k.1 = Purpose.playback →
      ∀ dc, buildCmdOpt chans segs now st k = some dc → dc ≠ [] →
        alookup s.lastCmd k = some dc) ∧
  (∀ p, alookup s.running k = some p → p.alive = false →
      buildCmdOpt chans segs now st k = none) ∧
  (alookup s.running k = none → buildCmdOpt chans segs now st k = none)

/-! ## Concrete configuration fixtures (used by the concrete theorems below) -/

/-- A channel with the spec's running example schedule 08:00–20:00, every
weekday enabled, no date bounds, a UDP-TS output and an enabled time-shift
profile whose configured delay is 10 minutes (600 seconds). -/
def chanA : Channel :=
  { id := 1, name := "A", enabled := true,
    input_type := "udp_multicast", input_url := "udp://224.2.2.2:2001",
    output_type := "udp_ts", output_target := "udp://239.0.0.9:2001",
    record_enabled := true,
    recording_path_template := "recordings/{channel}/{date}/",
    recording_segment_minutes := 60,
    auto_delete_enabled := false, auto_delete_after_segments := none,
    auto_delete_after_days := 7,
    video_mode := "copy", audio_mode := "copy", video_codec := "h264", audio_codec := "aac",
    monday := true, tuesday := true, wednesday := true, thursday := true,
    friday := true, saturday := true, sunday := true,
    start_time := some (8 * 3600), end_time := some (20 * 3600),
    date_from := none, date_to := none,
    timeshift_profile := some ⟨true, 10, "udp://239.0.0.10:2001"⟩ }

/-- `chanA` after an admin changed the output target. -/
def chanB : Channel := { chanA with output_target := "udp://239.0.0.8:2001" }

/-- A full-day channel (no start/end times) with recording allowed and an
enabled time-shift profile (delay 60 minutes). -/
def chanC4 : Channel :=
  { chanA with
    id := 4, name := "C",
    output_target := "udp://239.0.0.12:2001",
    start_time := none, end_time := none,
    timeshift_profile := some ⟨true, 60, "udp://239.0.0.11:2001"⟩ }

/-- A channel with count-based retention `keep 1`, age-based retention off,
one-hour segments and an enabled 180-minute time-shift profile. -/
def chanC7 : Channel :=
  { chanA with
    id := 7, name := "G",
    start_time := none, end_time := none,
    auto_delete_enabled := true, auto_delete_after_segments := some 1,
    auto_delete_after_days := 0,
    timeshift_profile := some ⟨true, 180, "udp://239.0.0.7:2001"⟩ }

/-- A channel with count-based retention `keep 3` only, one-minute segments
and no time-shift profile. -/
def chanC8 : Channel :=
  { chanA with
    id := 8, name := "H",
    start_time := none, end_time := none,
    auto_delete_enabled := true, auto_delete_after_segments := some 3,
    auto_delete_after_days := 0,
    recording_segment_minutes := 1,
    timeshift_profile := none }

/-- Midday on an (epoch) Monday. -/
def tMid : LocalDT := ⟨7, 12 * 3600⟩

/-- Another instant (different day and time) for clock-independence checks. -/
def tAlt : LocalDT := ⟨8, 3600⟩

/-- 20:05 on the same Monday as `tMid`. -/
def t2005 : LocalDT := ⟨7, 20 * 3600 + 5 * 60⟩

/-- 20:11 on the same Monday as `tMid`. -/
def t2011 : LocalDT := ⟨7, 20 * 3600 + 11 * 60⟩

/-- The `now` of the concrete retention runs. -/
def nowC7 : LocalDT := ⟨20000, 12 * 3600⟩

/-- A small instant for the count-based retention scenario. -/
def now8 : LocalDT := ⟨1, 0⟩

/-- Settings with the default 3-hour playback lookback window. -/
def stEx : Settings := ⟨"media", defaultPlaybackWindowSeconds⟩

/-- Settings with a tiny lookback window (so that small-number segment
timestamps sit outside every protected window). -/
def st8 : Settings := ⟨"m", 100⟩

/-- A segment used only to vary the segment-index input. -/
def segC6 : SegmentFile := ⟨0, "x.ts"⟩

/-- Two segments, both outside the playback window of `now8` with delay 3600. -/
def segsC5 : List SegmentFile := [⟨0, "a.ts"⟩, ⟨86000, "b.ts"⟩]

/-- A segment 5 hours old at `nowC7` — inside the protected window the
documentation describes (7 hours), outside the one the code computes (4 hours). -/
def segOldC7 : SegmentFile := ⟨nowC7.toSeconds - 18000, "old.ts"⟩

/-- A fresh segment (one minute old at `nowC7`). -/
def segNewC7 : SegmentFile := ⟨nowC7.toSeconds - 60, "new.ts"⟩

/-- Ten segments with distinct timestamps 1..10 and distinct paths. -/
def segsC8 : List SegmentFile :=
  [⟨1, "s1"⟩, ⟨2, "s2"⟩, ⟨3, "s3"⟩, ⟨4, "s4"⟩, ⟨5, "s5"⟩,
   ⟨6, "s6"⟩, ⟨7, "s7"⟩, ⟨8, "s8"⟩, ⟨9, "s9"⟩, ⟨10, "s10"⟩]

/-- The playback command built for `chanA` (evaluated form). -/
def cmdAx : List String := (buildCommand chanA Purpose.playback [] tMid stEx).toOption.getD []

/-- The playback command built for `chanB` (evaluated form). -/
def cmdBx : List String := (buildCommand chanB Purpose.playback [] tMid stEx).toOption.getD []

/-! ## Sorting facts -/

instance : IsTotal SegmentFile (fun a b => a.ts ≤ b.ts) :=
  ⟨fun a b => Int.le_total a.ts b.ts⟩

instance : IsTrans SegmentFile (fun a b => a.ts ≤ b.ts) :=
  ⟨fun _ _ _ h1 h2 => le_trans h1 h2⟩

theorem mem_sortByTs (a : SegmentFile) (l : List SegmentFile) : a ∈ sortByTs l ↔ a ∈ l :=
  (List.perm_insertionSort _ l).mem_iff

theorem sorted_sortByTs (l : List SegmentFile) :
    List.Sorted (fun a b => a.ts ≤ b.ts) (sortByTs l) :=
  List.sorted_insertionSort _ l

theorem perm_sortByTs (l : List SegmentFile) : List.Perm (sortByTs l) l :=
  List.perm_insertionSort _ l

/-! ## The missing `delay_seconds` attribute -/

/-- `TimeShiftProfile` defines `delay_minutes` but no `delay_seconds`, so the
`getattr`-based read of `delay_seconds` always produces its default. -/
theorem getattrInt_delay_seconds (p : TimeShiftProfile) :
    TimeShiftProfile.getattrInt p "delay_seconds" 0 = 0 := by
  rfl

/-- `int(getattr(profile, "delay_seconds", 0) or 0)` is 0 for every profile. -/
theorem readDelaySeconds_eq_zero (po : Option TimeShiftProfile) :
    readDelaySeconds po = 0 := by
  cases po <;> rfl


/-! ## Claim C1: schedule evaluator window semantics -/

/-- Claim C1: for an enabled channel, at an instant whose date lies within the
inclusive `[date_from, date_to]` range (open bounds when unset) and whose
weekday (Monday = 0 .. Sunday = 6) is enabled, `is_active_now` is decided by
the time window alone: with `start = start_time or 00:00` and
`end = end_time or 00:00`, it is true for every time of day when
`start = end`; when `start < end` it is true iff `start ≤ now.time < end`
(half-open); when `start > end` it is true iff `now.time ≥ start` or
`now.time < end`. -/
theorem claim_C1_schedule_window (c : Channel) (now : LocalDT)
    (hen : c.enabled = true)
    (hfrom : ∀ d, c.date_from = some d → d ≤ now.day)
    (hto : ∀ d, c.date_to = some d → now.day ≤ d)
    (hwd : (weekdayFlags c).getD now.weekday false = true) :
    c.is_active_now now =
      (if c.start_time.getD 0 = c.end_time.getD 0 then true
       else if c.start_time.getD 0 < c.end_time.getD 0 then
         decide (c.start_time.getD 0 ≤ now.tod ∧ now.tod < c.end_time.getD 0)
       else decide (c.start_time.getD 0 ≤ now.tod ∨ now.tod < c.end_time.getD 0)) := by
  have h1 : (match c.date_from with
      | some df => decide (now.day < df)
      | none => false) = false := by
    cases hdf : c.date_from with
    | none => rfl
    | some df => simpa using Nat.not_lt.mpr (hfrom df hdf)
  have h2 : (match c.date_to with
      | some dt => decide (dt < now.day)
      | none => false) = false := by
    cases hdt : c.date_to with
    | none => rfl
    | some dt => simpa using Nat.not_lt.mpr (hto dt hdt)
  unfold Channel.is_active_now
  simp only [hen, h1, h2, hwd]
  simp

/-- Closed instance of C1 at the 08:00–20:00 fixture: active at exactly 08:00,
inactive at exactly 20:00 (the half-open boundary of the claim). -/
theorem claim_C1_schedule_window_witness :
    chanA.is_active_now ⟨7, 8 * 3600⟩ = true ∧ chanA.is_active_now ⟨7, 20 * 3600⟩ = false := by
  constructor
  · rw [claim_C1_schedule_window chanA ⟨7, 8 * 3600⟩ rfl
      (by intro d hd; simp [chanA] at hd) (by intro d hd; simp [chanA] at hd) (by decide)]
    decide
  · rw [claim_C1_schedule_window chanA ⟨7, 20 * 3600⟩ rfl
      (by intro d hd; simp [chanA] at hd) (by intro d hd; simp [chanA] at hd) (by decide)]
    decide

/-! ## Association-list lemmas -/

theorem alookup_aupsert [DecidableEq α] (l : List (α × β)) (k : α) (v : β) (k2 : α) :
    alookup (aupsert l k v) k2 = if k = k2 then some v else alookup l k2 := by
  induction l with
  | nil => simp [aupsert, alookup]
  | cons kv t ih =>
    obtain ⟨k3, v3⟩ := kv
    by_cases h3 : k3 = k
    · subst h3
      by_cases h32 : k3 = k2 <;> simp [aupsert, alookup, h32]
    · simp only [aupsert, if_neg h3, alookup]
      by_cases h32 : k3 = k2
      · subst h32
        have : ¬k = k3 := fun h => h3 h.symm
        simp [alookup, this]
      · simp [alookup, h32, ih]

theorem alookup_aerase_ne [DecidableEq α] (l : List (α × β)) (k k2 : α) (h : k ≠ k2) :
    alookup (aerase l k) k2 = alookup l k2 := by
  induction l with
  | nil => simp [aerase]
  | cons kv t ih =>
    obtain ⟨k3, v3⟩ := kv
    by_cases h3 : k3 = k
    · subst h3
      have : ¬k3 = k2 := h
      simp [aerase, alookup, this]
    · simp [aerase, h3, alookup, ih]

theorem aupsert_cons_self [DecidableEq α] (k : α) (v2 v : β) (t : List (α × β)) :
    aupsert ((k, v2) :: t) k v = (k, v) :: t := by
  simp [aupsert]

theorem aupsert_cons_ne [DecidableEq α] {k2 k : α} (h : k2 ≠ k) (v2 v : β) (t : List (α × β)) :
    aupsert ((k2, v2) :: t) k v = (k2, v2) :: aupsert t k v := by
  simp [aupsert, h]

theorem mem_aupsert [DecidableEq α] (l : List (α × β)) (k : α) (v : β) (kv : α × β) :
    kv ∈ aupsert l k v → kv ∈ l ∨ kv.1 = k := by
  induction l with
  | nil =>
    intro h
    simp only [aupsert, List.mem_singleton] at h
    subst h
    exact Or.inr rfl
  | cons kv2 t ih =>
    obtain ⟨k3, v3⟩ := kv2
    intro h
    by_cases h3 : k3 = k
    · subst h3
      rw [aupsert_cons_self] at h
      rcases List.mem_cons.mp h with h1 | h1
      · subst h1
        exact Or.inr rfl
      · exact Or.inl (List.mem_cons_of_mem _ h1)
    · rw [aupsert_cons_ne h3] at h
      rcases List.mem_cons.mp h with h1 | h1
      · exact Or.inl (by simp [h1])
      · rcases ih h1 with h2 | h2
        · exact Or.inl (List.mem_cons_of_mem _ h2)
        · exact Or.inr h2

theorem mem_keys_aupsert [DecidableEq α] (l : List (α × β)) (k : α) (v : β) (k2 : α) :
    k2 ∈ (aupsert l k v).map Prod.fst ↔ k2 ∈ l.map Prod.fst ∨ k2 = k := by
  induction l with
  | nil => simp [aupsert]
  | cons kv t ih =>
    obtain ⟨k3, v3⟩ := kv
    by_cases h3 : k3 = k
    · subst h3
      simp [aupsert]
      tauto
    · simp only [aupsert, if_neg h3, List.map_cons, List.mem_cons, ih]
      tauto

theorem nodup_keys_aupsert [DecidableEq α] (l : List (α × β)) (k : α) (v : β)
    (h : (l.map Prod.fst).Nodup) : ((aupsert l k v).map Prod.fst).Nodup := by
  induction l with
  | nil => simp [aupsert]
  | cons kv t ih =>
    obtain ⟨k3, v3⟩ := kv
    simp only [List.map_cons, List.nodup_cons] at h
    by_cases h3 : k3 = k
    · subst h3
      simpa [aupsert] using h
    · simp only [aupsert, if_neg h3, List.map_cons, List.nodup_cons]
      refine ⟨fun hmem => ?_, ih h.2⟩
      rcases (mem_keys_aupsert t k v k3).mp hmem with h4 | h4
      · exact h.1 h4
      · exact h3 h4

/-! ## Desired-job-set reductions -/

theorem decide_int_zero_le : (decide ((0 : Int) ≤ 0)) = true := rfl

theorem decide_int_zero_lt : (decide ((0 : Int) < 0)) = false := rfl

/-- With the profile delay read always 0 (`readDelaySeconds_eq_zero`), the
per-channel desired-job step reduces to: if the schedule is active and a UDP
output is configured, upsert a live playback job; otherwise leave the set
unchanged.  In particular the record/time-shift branch is unreachable. -/
theorem desireChannel_eq (now : LocalDT) (acc : List (JobKey × String)) (chan : Channel) :
    desireChannel now acc chan =
      (if chan.is_active_now now && hasUdpOut chan then
        aupsert acc (Purpose.playback, chan.id) (chan.name ++ " [LIVE playback]")
      else acc) := by
  unfold desireChannel
  simp only [readDelaySeconds_eq_zero, decide_int_zero_le, decide_int_zero_lt,
    Bool.or_true, Bool.and_true, Bool.and_false]
  cases hact : chan.is_active_now now <;> cases hudp : hasUdpOut chan <;> simp [hact, hudp]

/-- Membership in the keys of the desired set after one channel step. -/
theorem mem_keys_desireChannel (now : LocalDT) (acc : List (JobKey × String))
    (chan : Channel) (k : JobKey) :
    k ∈ (desireChannel now acc chan).map Prod.fst ↔
      (k ∈ acc.map Prod.fst ∨
        (chan.is_active_now now = true ∧ hasUdpOut chan = true ∧
          k = (Purpose.playback, chan.id))) := by
  rw [desireChannel_eq]
  by_cases hc : (chan.is_active_now now && hasUdpOut chan) = true
  · rw [if_pos hc, mem_keys_aupsert]
    have h1 : chan.is_active_now now = true := (Bool.and_eq_true_iff.mp hc).1
    have h2 : hasUdpOut chan = true := (Bool.and_eq_true_iff.mp hc).2
    simp [h1, h2]
  · rw [if_neg hc]
    have hnc : ¬(chan.is_active_now now = true ∧ hasUdpOut chan = true) := by
      rintro ⟨a, b⟩
      exact hc (by rw [a, b]; rfl)
    constructor
    · exact fun h => Or.inl h
    · rintro (h | ⟨h1, h2, h3⟩)
      · exact h
      · exact absurd ⟨h1, h2⟩ hnc

/-- Membership in the keys of the desired job set of one tick: exactly the
live-playback keys of the active, UDP-output channels of the snapshot. -/
theorem mem_keys_computeDesired (chans : List Channel) (now : LocalDT) (k : JobKey) :
    k ∈ (computeDesired chans now).map Prod.fst ↔
      ∃ c, c ∈ chans ∧ c.is_active_now now = true ∧ hasUdpOut c = true ∧
        k = (Purpose.playback, c.id) := by
  have hgen : ∀ (cs : List Channel) (acc : List (JobKey × String)),
      k ∈ (cs.foldl (desireChannel now) acc).map Prod.fst ↔
        (k ∈ acc.map Prod.fst ∨
          ∃ c, c ∈ cs ∧ c.is_active_now now = true ∧ hasUdpOut c = true ∧
            k = (Purpose.playback, c.id)) := by
    intro cs
    induction cs with
    | nil => simp
    | cons c t ih =>
      intro acc
      rw [List.foldl_cons, ih, mem_keys_desireChannel]
      constructor
      · rintro ((h | h) | ⟨c2, hc2, h1, h2, h3⟩)
        · exact Or.inl h
        · exact Or.inr ⟨c, List.mem_cons_self c t, h.1, h.2.1, h.2.2⟩
        · exact Or.inr ⟨c2, List.mem_cons_of_mem _ hc2, h1, h2, h3⟩
      · rintro (h | ⟨c2, hc2, h1, h2, h3⟩)
        · exact Or.inl (Or.inl h)
        · rcases List.mem_cons.mp hc2 with hc2 | hc2
          · subst hc2
            exact Or.inl (Or.inr ⟨h1, h2, h3⟩)
          · exact Or.inr ⟨c2, hc2, h1, h2, h3⟩
  rw [computeDesired, hgen]
  simp

/-- Keys of the desired job set are distinct (a Python dict never repeats a key). -/
theorem nodup_keys_computeDesired (chans : List Channel) (now : LocalDT) :
    ((computeDesired chans now).map Prod.fst).Nodup := by
  have hgen : ∀ (cs : List Channel) (acc : List (JobKey × String)),
      (acc.map Prod.fst).Nodup → ((cs.foldl (desireChannel now) acc).map Prod.fst).Nodup := by
    intro cs
    induction cs with
    | nil => intro acc h; simpa using h
    | cons c t ih =>
      intro acc h
      rw [List.foldl_cons]
      refine ih _ ?_
      rw [desireChannel_eq]
      split
      · exact nodup_keys_aupsert _ _ _ h
      · exact h
  exact hgen chans [] (by simp)

/-! ## Playback build reductions -/

/-- Since the `delay_seconds` read is always 0, every playback build takes the
live branch: it is an `InvalidConfig` error when the output is not a non-blank
UDP-TS target, and otherwise the live restream command to the normalized
output URL.  The time-shift concat branch (and with it the `NotReady` error
and the playlist write) is unreachable. -/
theorem buildCommand_playback_live (chan : Channel) (segs : List SegmentFile)
    (now : LocalDT) (st : Settings) :
    buildCommand chan Purpose.playback segs now st =
      (if chan.output_type ≠ "udp_ts" ∨ pyTrim chan.output_target = "" then
        Except.error (BuildErr.valueError
          "Channel output must be UDP TS and output_target must be set for playback.")
      else
        Except.ok (ffmpegBase ++ buildLiveInputArgs chan st
          ++ videoCodecArgs chan ++ audioCodecArgs chan
          ++ mpegtsOutputArgs (normalizeUdpOutput (pyTrim chan.output_target)))) := by
  unfold buildCommand
  simp only [readDelaySeconds_eq_zero, decide_int_zero_le, Bool.or_true, if_true]

/-! ## Claim C2: the `delay_seconds` read and its consequences -/

/-- Claim C2: `TimeShiftProfile` stores `delay_minutes` and defines no
`delay_seconds`, so the `getattr`-based delay read of `build_command` (and of
the enforcer) always yields 0.  Consequently every playback build is on the
live path — it does not depend on the segment index, and an `ok` result is
exactly the live restream command to the normalized output target (so no
concat playlist is ever written and the time-shift branch is unreachable) —
and the enforcer never places a record job in the desired job set. -/
theorem claim_C2_delay_read_always_zero :
    (∀ p : TimeShiftProfile, TimeShiftProfile.getattrInt p "delay_seconds" 0 = 0) ∧
    (∀ po : Option TimeShiftProfile, readDelaySeconds po = 0) ∧
    (∀ (chan : Channel) (segs : List SegmentFile) (now : LocalDT) (st : Settings),
      buildCommand chan Purpose.playback segs now st
        = buildCommand chan Purpose.playback [] now st) ∧
    (∀ (chan : Channel) (segs : List SegmentFile) (now : LocalDT) (st : Settings)
        (args : List String),
      buildCommand chan Purpose.playback segs now st = Except.ok args →
        args = ffmpegBase ++ buildLiveInputArgs chan st
          ++ videoCodecArgs chan ++ audioCodecArgs chan
          ++ mpegtsOutputArgs (normalizeUdpOutput (pyTrim chan.output_target))) ∧
    (∀ (chans : List Channel) (now : LocalDT) (k : JobKey) (d : String),
      (k, d) ∈ computeDesired chans now → k.1 = Purpose.playback) := by
  refine ⟨getattrInt_delay_seconds, readDelaySeconds_eq_zero, ?_, ?_, ?_⟩
  · intro chan segs now st
    rw [buildCommand_playback_live, buildCommand_playback_live]
  · intro chan segs now st args h
    rw [buildCommand_playback_live] at h
    split at h
    · cases h
    · exact (Except.ok.inj h).symm
  · intro chans now k d hmem
    have hk : k ∈ (computeDesired chans now).map Prod.fst :=
      List.mem_map_of_mem Prod.fst hmem
    obtain ⟨c, _, _, _, hkk⟩ := (mem_keys_computeDesired chans now k).mp hk
    rw [hkk]

/-- Closed instance of C2: the 180-minute profile reads back a zero
`delay_seconds`, and a concretely desired job key has purpose playback. -/
theorem claim_C2_delay_read_always_zero_witness :
    TimeShiftProfile.getattrInt ⟨true, 180, "udp://239.0.0.10:2001"⟩ "delay_seconds" 0 = 0 ∧
    Purpose.playback = Purpose.playback :=
  ⟨claim_C2_delay_read_always_zero.1 ⟨true, 180, "udp://239.0.0.10:2001"⟩,
   claim_C2_delay_read_always_zero.2.2.2.2 [chanA] tMid (Purpose.playback, 1)
     ("A [LIVE playback]") (by decide)⟩

/-! ## Claim C6: live-mode playback builds are segment-index free -/

/-- Claim C6: for playback with the profile disabled or a non-positive delay
(live mode), the build does not read the segment index nor the clock (the
result is the same for every segment list and instant), never fails with
`NotReady`, and on success is exactly the live restream command ending in the
normalized output target. -/
theorem claim_C6_live_playback_no_index (chan : Channel)
    (segs segs2 : List SegmentFile) (now now2 : LocalDT) (st : Settings)
    (hlive : readProfileEnabled chan.timeshift_profile = false ∨
      readDelaySeconds chan.timeshift_profile ≤ 0) :
    buildCommand chan Purpose.playback segs now st
        = buildCommand chan Purpose.playback segs2 now2 st ∧
    (∀ m, buildCommand chan Purpose.playback segs now st
        ≠ Except.error (BuildErr.notReady m)) ∧
    (∀ args, buildCommand chan Purpose.playback segs now st = Except.ok args →
      args = ffmpegBase ++ buildLiveInputArgs chan st
        ++ videoCodecArgs chan ++ audioCodecArgs chan
        ++ mpegtsOutputArgs (normalizeUdpOutput (pyTrim chan.output_target))) := by
  refine ⟨?_, ?_, ?_⟩
  · rw [buildCommand_playback_live, buildCommand_playback_live]
  · intro m
    rw [buildCommand_playback_live]
    split
    · intro hcon
      simp at hcon
    · intro hcon
      cases hcon
  · intro args h
    rw [buildCommand_playback_live] at h
    split at h
    · cases h
    · exact (Except.ok.inj h).symm

/-- Closed instance of C6: the build for `chanA` (whose delay read is 0, hence
live mode) is unchanged when the segment index and the clock change. -/
theorem claim_C6_live_playback_no_index_witness :
    buildCommand chanA Purpose.playback [segC6] tMid stEx
      = buildCommand chanA Purpose.playback [] tAlt stEx :=
  (claim_C6_live_playback_no_index chanA [segC6] [] tMid tAlt stEx
    (Or.inr (by decide))).1

/-! ## Claim C5: the time-shift playlist window -/

/-- Claim C5: with `target = now - delay` and the configured lookback window,
the playlist builder selects exactly the segments whose timestamps lie in the
inclusive interval `[target - window, target]` (one `file` line per selected
segment), and it fails with `NotReady` if and only if no segment timestamp
lies in that interval. -/
theorem claim_C5_playlist_window (chan : Channel) (segs : List SegmentFile)
    (now : LocalDT) (delaySeconds : Int) (st : Settings) :
    ((∃ m, buildPlaybackConcatPlaylist chan segs now delaySeconds st
        = Except.error (BuildErr.notReady m)) ↔
      (∀ s ∈ segs,
        ¬(now.toSeconds - delaySeconds - st.playbackWindowSeconds ≤ s.ts ∧
          s.ts ≤ now.toSeconds - delaySeconds))) ∧
    (∀ s : SegmentFile,
      s ∈ (iterRecordingSegments segs).filter
          (fun s => decide (now.toSeconds - delaySeconds - st.playbackWindowSeconds ≤ s.ts)
            && decide (s.ts ≤ now.toSeconds - delaySeconds)) ↔
        (s ∈ segs ∧ now.toSeconds - delaySeconds - st.playbackWindowSeconds ≤ s.ts ∧
          s.ts ≤ now.toSeconds - delaySeconds)) ∧
    (∀ path lines, buildPlaybackConcatPlaylist chan segs now delaySeconds st
        = Except.ok (path, lines) →
      lines = (((iterRecordingSegments segs).filter
          (fun s => decide (now.toSeconds - delaySeconds - st.playbackWindowSeconds ≤ s.ts)
            && decide (s.ts ≤ now.toSeconds - delaySeconds))).map SegmentFile.path).map
          (fun p => "file " ++ shlexQuote p)) := by
  have hmem : ∀ s : SegmentFile,
      s ∈ (iterRecordingSegments segs).filter
          (fun s => decide (now.toSeconds - delaySeconds - st.playbackWindowSeconds ≤ s.ts)
            && decide (s.ts ≤ now.toSeconds - delaySeconds)) ↔
        (s ∈ segs ∧ now.toSeconds - delaySeconds - st.playbackWindowSeconds ≤ s.ts ∧
          s.ts ≤ now.toSeconds - delaySeconds) := by
    intro s
    rw [List.mem_filter, iterRecordingSegments, mem_sortByTs]
    simp [and_assoc]
  by_cases hE : ((((iterRecordingSegments segs).filter
      (fun s => decide (now.toSeconds - delaySeconds - st.playbackWindowSeconds ≤ s.ts)
        && decide (s.ts ≤ now.toSeconds - delaySeconds))).map SegmentFile.path).isEmpty) = true
  · have hnil : ((iterRecordingSegments segs).filter
        (fun s => decide (now.toSeconds - delaySeconds - st.playbackWindowSeconds ≤ s.ts)
          && decide (s.ts ≤ now.toSeconds - delaySeconds))) = [] := by
      have := List.isEmpty_iff.mp hE
      exact List.map_eq_nil_iff.mp this
    have hres : buildPlaybackConcatPlaylist chan segs now delaySeconds st
        = Except.error (BuildErr.notReady ("No TS segments found for playback yet for channel "
          ++ chan.name ++ "; recording may still be warming up; enforcer will retry.")) := by
      unfold buildPlaybackConcatPlaylist
      simp only [hE, if_true]
    refine ⟨?_, hmem, ?_⟩
    · constructor
      · intro _ s hs hwin
        have : s ∈ ((iterRecordingSegments segs).filter
            (fun s => decide (now.toSeconds - delaySeconds - st.playbackWindowSeconds ≤ s.ts)
              && decide (s.ts ≤ now.toSeconds - delaySeconds))) :=
          (hmem s).mpr ⟨hs, hwin⟩
        rw [hnil] at this
        cases this
      · intro _
        exact ⟨_, hres⟩
    · intro path lines h
      rw [hres] at h
      cases h
  · have hres : buildPlaybackConcatPlaylist chan segs now delaySeconds st
        = Except.ok
            (joinPath (joinPath (joinPath st.mediaRoot "playlists")
                ("channel_" ++ toString chan.id)) "concat.txt",
             (((iterRecordingSegments segs).filter
                (fun s => decide (now.toSeconds - delaySeconds - st.playbackWindowSeconds ≤ s.ts)
                  && decide (s.ts ≤ now.toSeconds - delaySeconds))).map SegmentFile.path).map
                (fun p => "file " ++ shlexQuote p)) := by
      unfold buildPlaybackConcatPlaylist
      simp only [hE]
      rfl
    have hne : ((iterRecordingSegments segs).filter
        (fun s => decide (now.toSeconds - delaySeconds - st.playbackWindowSeconds ≤ s.ts)
          && decide (s.ts ≤ now.toSeconds - delaySeconds))) ≠ [] := by
      intro hcon
      apply hE
      rw [hcon]
      rfl
    obtain ⟨s0, hs0⟩ := List.exists_mem_of_ne_nil _ hne
    have hs0' := (hmem s0).mp hs0
    refine ⟨?_, hmem, ?_⟩
    · constructor
      · rintro ⟨m, hm⟩
        rw [hres] at hm
        cases hm
      · intro hall
        exact absurd hs0'.2 (hall s0 hs0'.1)
    · intro path lines h
      rw [hres] at h
      have := Except.ok.inj h
      exact (congrArg Prod.snd this).symm

/-- Closed instance of C5: delay 3600 with both segments outside
`[target - window, target]` fails with `NotReady`. -/
theorem claim_C5_playlist_window_witness :
    ∃ m, buildPlaybackConcatPlaylist chanA segsC5 now8 3600 stEx
      = Except.error (BuildErr.notReady m) :=
  (claim_C5_playlist_window chanA segsC5 now8 3600 stEx).1.mpr (by decide)

/-! ## Claim C3: there is no tail extension -/

/-- Counterexample to C3: the claim demands that with schedule 08:00-20:00,
delay 600 s (`delay_minutes = 10`) and tail extension enabled, playback
activity is still true at 20:05.  The code has no tail extension at all — the
enforcer's playback-activity check is `is_active_now` itself (and the data
model has no tail flag): at 20:05 the channel is inactive and the desired job
set of a tick containing only this channel is empty, so no playback job is
desired; the claimed `true at 20:05` is false on the code. -/
theorem claim_C3_counterexample :
    chanA.is_active_now t2005 = false ∧
    readProfileEnabled chanA.timeshift_profile = true ∧
    computeDesired [chanA] t2005 = [] ∧
    chanA.is_active_now t2011 = false := by
  decide

/-- Claim C3 (amended): the enforcer has no tail extension; its
playback-activity check is exactly `IsActive` (`is_active_now`), so a playback
job can be desired at an instant only for a channel whose schedule evaluator
is true at that instant — regardless of the time-shift delay.  (In particular,
for an 08:00-20:00 schedule, playback activity is false at 20:05 and at
20:11, per `claim_C3_counterexample`.) -/
theorem claim_C3_no_tail_extension (chans : List Channel) (now : LocalDT)
    (k : JobKey) (d : String) (h : (k, d) ∈ computeDesired chans now) :
    ∃ c, c ∈ chans ∧ c.id = k.2 ∧ c.is_active_now now = true := by
  have hk : k ∈ (computeDesired chans now).map Prod.fst :=
    List.mem_map_of_mem Prod.fst h
  obtain ⟨c, hc, hact, _, hkk⟩ := (mem_keys_computeDesired chans now k).mp hk
  exact ⟨c, hc, by rw [hkk], hact⟩

/-- Closed instance of the amended C3 at a concrete desired job. -/
theorem claim_C3_no_tail_extension_witness :
    ∃ c, c ∈ [chanA] ∧ c.id = (Purpose.playback, 1).2 ∧ c.is_active_now tMid = true :=
  claim_C3_no_tail_extension [chanA] tMid (Purpose.playback, 1) "A [LIVE playback]" (by decide)

/-! ## Claim C4: what the desired job set actually is -/

/-- Counterexample to C4: a channel that is enabled, schedule-active, has
recording enabled and an enabled time-shift profile (delay 60 minutes) — by
the claim a record job must be desired — yet the tick desires only the live
playback job: the enforcer never consults `record_enabled`, and its record
condition (profile enabled and read delay > 0) never holds because the delay
read is always 0. -/
theorem claim_C4_counterexample :
    chanC4.record_enabled = true ∧
    chanC4.is_active_now tMid = true ∧
    readProfileEnabled chanC4.timeshift_profile = true ∧
    (computeDesired [chanC4] tMid).map Prod.fst = [(Purpose.playback, 4)] ∧
    ¬(Purpose.record, 4) ∈ (computeDesired [chanC4] tMid).map Prod.fst := by
  decide

/-- Claim C4 (amended): on a reconciliation tick over a channel snapshot, a
key is in the desired job set iff it is the playback key of some
schedule-active channel of the snapshot with a UDP-style output target.  In
particular no record key is ever desired (the time-shift branch needs a
positive delay read, which never happens), `record_enabled` plays no role,
and the active check is `IsActive` itself. -/
theorem claim_C4_desired_jobs (chans : List Channel) (now : LocalDT) (k : JobKey) :
    k ∈ (computeDesired chans now).map Prod.fst ↔
      (k.1 = Purpose.playback ∧
        ∃ c, c ∈ chans ∧ c.id = k.2 ∧ c.is_active_now now = true ∧ hasUdpOut c = true) := by
  rw [mem_keys_computeDesired]
  constructor
  · rintro ⟨c, hc, hact, hudp, hkk⟩
    subst hkk
    exact ⟨rfl, c, hc, rfl, hact, hudp⟩
  · rintro ⟨hk1, c, hc, hid, hact, hudp⟩
    refine ⟨c, hc, hact, hudp, ?_⟩
    obtain ⟨k1, k2⟩ := k
    simp only at hk1 hid
    rw [hk1, hid]

/-! ## Claim C7: the protected window omits the delay (code bug) -/

/-- Evaluation of the pruner at the C7 failing input: `chanC7` has an enabled
180-minute time-shift profile and one-hour segments, so by the claim (and by
the pruner's own docstring) a segment newer than
`now - (180*60 + window + 3600)` must never be deleted.  Because the pruner
reads the nonexistent `delay_seconds` attribute, its protected cutoff is
`now - (0 + window + 3600)`, and with count-based retention `keep 1` it
deletes the 5-hour-old segment even though that segment is newer than the
claimed cutoff. -/
theorem claim_C7_protect_window_evaluation :
    autoDeleteForChannel chanC7 [segOldC7, segNewC7] nowC7 stEx = ["old.ts"] ∧
    readProfileEnabled chanC7.timeshift_profile = true ∧
    chanC7.timeshift_profile = some ⟨true, 180, "udp://239.0.0.7:2001"⟩ ∧
    segOldC7.ts > nowC7.toSeconds
      - ((180 * 60 : Int) + stEx.playbackWindowSeconds
          + (chanC7.recording_segment_minutes : Int) * 60) ∧
    protectAfterOf chanC7 nowC7 stEx
      = nowC7.toSeconds - (0 + stEx.playbackWindowSeconds
          + (chanC7.recording_segment_minutes : Int) * 60) := by
  decide

/-! ## Claim C8: count-based retention -/

/-- Claim C8: when retention is count-based (`maxSegmentCount = n`, age-based
retention unset), pruning deletes exactly the segments outside the `n` most
recent (by timestamp) whose timestamps are older than the protected cutoff;
the `n` most recent segments are kept, and every kept-by-count segment indeed
has a timestamp at least as large as every older one. -/
theorem claim_C8_count_retention (chan : Channel) (segs : List SegmentFile)
    (now : LocalDT) (st : Settings) (n : Nat)
    (hdays : chan.auto_delete_after_days = 0)
    (hcnt : chan.auto_delete_after_segments = some n)
    (hn : 0 < n)
    (hnodup : (segs.map SegmentFile.path).Nodup) :
    (∀ p, p ∈ autoDeleteForChannel chan segs now st ↔
      ∃ s, s ∈ (sortByTs segs).take ((sortByTs segs).length - n) ∧ s.path = p ∧
        s.ts < protectAfterOf chan now st) ∧
    (∀ s, s ∈ (sortByTs segs).drop ((sortByTs segs).length - n) →
      s.path ∉ autoDeleteForChannel chan segs now st) ∧
    (∀ s, s ∈ (sortByTs segs).take ((sortByTs segs).length - n) →
      ∀ s2, s2 ∈ (sortByTs segs).drop ((sortByTs segs).length - n) → s.ts ≤ s2.ts) := by
  have hdel : autoDeleteForChannel chan segs now st =
      (if segs.isEmpty then [] else
        ((if 0 < n ∧ n < (sortByTs segs).length then
          (((sortByTs segs).take ((sortByTs segs).length - n)).filter
            (fun s => decide (s.ts < protectAfterOf chan now st))).map SegmentFile.path
        else []) : List String).dedup) := by
    unfold autoDeleteForChannel
    rw [hdays, hcnt]
    simp only [ne_eq, not_true_eq_false, if_false, reduceCtorEq]
    split
    · rfl
    · have hn0 : (n ≠ 0) = True := by simp [Nat.pos_iff_ne_zero.mp hn]
      simp only [hn0, if_true, List.nil_append]
  by_cases hsegs : segs.isEmpty = true
  · have hnil : segs = [] := List.isEmpty_iff.mp hsegs
    subst hnil
    rw [hdel]
    simp [sortByTs, List.insertionSort]
  · have hEfalse : segs.isEmpty = false := by
      rw [Bool.not_eq_true] at hsegs
      exact hsegs
    by_cases hlen : n < (sortByTs segs).length
    · have hdel2 : autoDeleteForChannel chan segs now st =
          ((((sortByTs segs).take ((sortByTs segs).length - n)).filter
            (fun s => decide (s.ts < protectAfterOf chan now st))).map SegmentFile.path).dedup := by
        rw [hdel, hEfalse]
        simp only [Bool.false_eq_true, if_false, if_pos (And.intro hn hlen)]
      have hconj1 : ∀ p, p ∈ autoDeleteForChannel chan segs now st ↔
          ∃ s, s ∈ (sortByTs segs).take ((sortByTs segs).length - n) ∧ s.path = p ∧
            s.ts < protectAfterOf chan now st := by
        intro p
        rw [hdel2, List.mem_dedup, List.mem_map]
        constructor
        · rintro ⟨s, hs, hp⟩
          rw [List.mem_filter] at hs
          exact ⟨s, hs.1, hp, by simpa using hs.2⟩
        · rintro ⟨s, hs, hp, hts⟩
          exact ⟨s, List.mem_filter.mpr ⟨hs, by simpa using hts⟩, hp⟩
      have hnodupS : ((sortByTs segs).map SegmentFile.path).Nodup :=
        ((perm_sortByTs segs).map SegmentFile.path).nodup_iff.mpr hnodup
      have hdisj : ∀ a ∈ ((sortByTs segs).take ((sortByTs segs).length - n)).map SegmentFile.path,
          a ∉ ((sortByTs segs).drop ((sortByTs segs).length - n)).map SegmentFile.path := by
        have h2 := hnodupS
        rw [← List.take_append_drop ((sortByTs segs).length - n) (sortByTs segs),
          List.map_append] at h2
        exact fun a ha hb => (List.nodup_append.mp h2).2.2 ha hb
      refine ⟨hconj1, ?_, ?_⟩
      · intro s hs hmem
        obtain ⟨s2, hs2, hpath, _⟩ := (hconj1 s.path).mp hmem
        exact hdisj s2.path (List.mem_map_of_mem _ hs2)
          (by rw [hpath]; exact List.mem_map_of_mem _ hs)
      · have hsorted := sorted_sortByTs segs
        rw [← List.take_append_drop ((sortByTs segs).length - n) (sortByTs segs)] at hsorted
        have hcross := (List.pairwise_append.mp hsorted).2.2
        intro s hs s2 hs2
        exact hcross s hs s2 hs2
    · have hzero : (sortByTs segs).length - n = 0 :=
        Nat.sub_eq_zero_of_le (Nat.le_of_not_lt hlen)
      have hdel2 : autoDeleteForChannel chan segs now st = [] := by
        rw [hdel, hEfalse]
        simp [hlen]
      rw [hdel2, hzero]
      simp

/-- Closed instance of C8: ten segments, `keep = 3`, all outside the protected
window — the most recent segment is kept and exactly 7 are deleted. -/
theorem claim_C8_count_retention_witness :
    (⟨10, "s10"⟩ : SegmentFile).path ∉ autoDeleteForChannel chanC8 segsC8 now8 st8 ∧
    (autoDeleteForChannel chanC8 segsC8 now8 st8).length = 7 := by
  refine ⟨?_, by decide⟩
  exact (claim_C8_count_retention chanC8 segsC8 now8 st8 3 rfl rfl (by decide) (by decide)).2.1
    ⟨10, "s10"⟩ (by decide)

/-! ## Enforcer idempotence machinery -/

theorem alookup_aerase_self_removed [DecidableEq α] (l : List (α × β)) (k : α) (v : β) :
    alookup (aupsert (aerase l k) k v) k = some v := by
  rw [alookup_aupsert]
  simp

/-- `startFresh` with a successful build: the spawned entry and recorded
vector. -/
theorem startFresh_build_some (chans : List Channel) (segs : List SegmentFile)
    (now : LocalDT) (st : Settings) (s : EnfState) (es : List Event) (key : JobKey)
    (cmd : List String) (hb : buildCmdOpt chans segs now st key = some cmd) :
    startFresh chans segs now st s es key =
      ({ running := aupsert s.running key ⟨s.nextPid, true⟩,
         lastCmd := aupsert s.lastCmd key cmd,
         nextPid := s.nextPid + 1 }, es ++ [Event.spawnEv key cmd]) := by
  unfold startFresh
  rw [hb]

/-- `startFresh` with a failing build is a no-op. -/
theorem startFresh_build_none (chans : List Channel) (segs : List SegmentFile)
    (now : LocalDT) (st : Settings) (s : EnfState) (es : List Event) (key : JobKey)
    (hb : buildCmdOpt chans segs now st key = none) :
    startFresh chans segs now st s es key = (s, es) := by
  unfold startFresh
  rw [hb]

/-- A quiescent key's start-loop iteration is the identity. -/
theorem startStep_eq_of_good (chans : List Channel) (segs : List SegmentFile)
    (now : LocalDT) (st : Settings) (k : JobKey) (s : EnfState)
    (h : GoodKey chans segs now st k s) (es : List Event) :
    startStep chans segs now st (s, es) k = (s, es) := by
  obtain ⟨h1, h2, h3⟩ := h
  unfold startStep
  cases hr : alookup s.running k with
  | none =>
    simp only [hr]
    exact startFresh_build_none chans segs now st s es k (h3 hr)
  | some p =>
    cases hal : p.alive with
    | false =>
      simp only [hr, hal, Bool.false_eq_true, if_false]
      exact startFresh_build_none chans segs now st s es k (h2 p hr hal)
    | true =>
      simp only [hr, hal, if_true]
      obtain ⟨kp, kid⟩ := k
      cases kp with
      | record => rfl
      | playback =>
        cases hb : buildCmdOpt chans segs now st (Purpose.playback, kid) with
        | none => rfl
        | some dc =>
          by_cases hdc : dc.isEmpty = true
          · simp only [hdc, if_true]
          · simp only [hdc, Bool.false_eq_true, if_false]
            have hne : dc ≠ [] := by
              intro hcon
              rw [hcon] at hdc
              exact hdc rfl
            have hlast := h1 p hr hal rfl dc hb hne
            rw [hlast]
            have hlcE : dc.isEmpty = false := by
              rw [Bool.not_eq_true] at hdc
              exact hdc
            simp only [hlcE, Bool.false_eq_true, if_false]
            simp

/-- After a spawn for key `k`, the key is quiescent. -/
theorem goodKey_after_spawn (chans : List Channel) (segs : List SegmentFile)
    (now : LocalDT) (st : Settings) (k : JobKey)
    (run0 : List (JobKey × Proc)) (lc0 : List (JobKey × List String))
    (pid npid : Nat) (cmd : List String)
    (hb : buildCmdOpt chans segs now st k = some cmd) :
    GoodKey chans segs now st k ⟨aupsert run0 k ⟨pid, true⟩, aupsert lc0 k cmd, npid⟩ := by
  refine ⟨?_, ?_, ?_⟩
  · intro p hp _ _ dc hdc _
    rw [hb] at hdc
    have he : cmd = dc := Option.some.inj hdc
    show alookup (aupsert lc0 k cmd) k = some dc
    rw [alookup_aupsert, if_pos rfl, he]
  · intro p hp hal
    show buildCmdOpt chans segs now st k = none
    have hlook : alookup (aupsert run0 k ⟨pid, true⟩) k = some ⟨pid, true⟩ := by
      rw [alookup_aupsert, if_pos rfl]
    rw [hlook] at hp
    have he : (⟨pid, true⟩ : Proc) = p := Option.some.inj hp
    rw [← he] at hal
    exact Bool.noConfusion hal
  · intro hp
    have hlook : alookup (aupsert run0 k ⟨pid, true⟩) k = some ⟨pid, true⟩ := by
      rw [alookup_aupsert, if_pos rfl]
    rw [hlook] at hp
    exact Option.noConfusion hp

/-- Every start-loop iteration leaves its own key quiescent. -/
theorem startStep_good (chans : List Channel) (segs : List SegmentFile)
    (now : LocalDT) (st : Settings) (s : EnfState) (es : List Event) (k : JobKey) :
    GoodKey chans segs now st k (startStep chans segs now st (s, es) k).1 := by
  unfold startStep
  cases hr : alookup s.running k with
  | none =>
    simp only [hr]
    show GoodKey chans segs now st k (startFresh chans segs now st s es k).1
    cases hb : buildCmdOpt chans segs now st k with
    | none =>
      rw [startFresh_build_none chans segs now st s es k hb]
      refine ⟨?_, ?_, ?_⟩
      · intro p hp
        rw [hr] at hp
        exact Option.noConfusion hp
      · intro p hp
        rw [hr] at hp
        exact Option.noConfusion hp
      · intro _
        exact hb
    | some cmd =>
      rw [startFresh_build_some chans segs now st s es k cmd hb]
      exact goodKey_after_spawn chans segs now st k s.running s.lastCmd s.nextPid
        (s.nextPid + 1) cmd hb
  | some p =>
    cases hal : p.alive with
    | false =>
      simp only [hr, hal, Bool.false_eq_true, if_false]
      show GoodKey chans segs now st k (startFresh chans segs now st s es k).1
      cases hb : buildCmdOpt chans segs now st k with
      | none =>
        rw [startFresh_build_none chans segs now st s es k hb]
        refine ⟨?_, ?_, ?_⟩
        · intro p2 hp2 hal2 _ dc hdc _
          rw [hr] at hp2
          have he : p = p2 := Option.some.inj hp2
          rw [← he, hal] at hal2
          exact Bool.noConfusion hal2
        · intro p2 _ _
          exact hb
        · intro _
          exact hb
      | some cmd =>
        rw [startFresh_build_some chans segs now st s es k cmd hb]
        exact goodKey_after_spawn chans segs now st k s.running s.lastCmd s.nextPid
          (s.nextPid + 1) cmd hb
    | true =>
      simp only [hr, hal, if_true]
      obtain ⟨kp, kid⟩ := k
      cases kp with
      | record =>
        refine ⟨?_, ?_, ?_⟩
        · intro p2 _ _ hk1
          exact Purpose.noConfusion hk1
        · intro p2 hp2 hal2
          rw [hr] at hp2
          have he : p = p2 := Option.some.inj hp2
          rw [← he, hal] at hal2
          exact Bool.noConfusion hal2
        · intro hp2
          rw [hr] at hp2
          exact Option.noConfusion hp2
      | playback =>
        cases hb : buildCmdOpt chans segs now st (Purpose.playback, kid) with
        | none =>
          refine ⟨?_, ?_, ?_⟩
          · intro p2 _ _ _ dc hdc _
            rw [hb] at hdc
            exact Option.noConfusion hdc
          · intro p2 hp2 hal2
            rw [hr] at hp2
            have he : p = p2 := Option.some.inj hp2
            rw [← he, hal] at hal2
            exact Bool.noConfusion hal2
          · intro hp2
            rw [hr] at hp2
            exact Option.noConfusion hp2
        | some dc =>
          by_cases hdc : dc.isEmpty = true
          · simp only [hdc, if_true]
            have hdcnil : dc = [] := List.isEmpty_iff.mp hdc
            refine ⟨?_, ?_, ?_⟩
            · intro p2 _ _ _ dc2 hdc2 hne2
              rw [hb] at hdc2
              have he2 : dc = dc2 := Option.some.inj hdc2
              rw [← he2, hdcnil] at hne2
              exact absurd rfl hne2
            · intro p2 hp2 hal2
              rw [hr] at hp2
              have he : p = p2 := Option.some.inj hp2
              rw [← he, hal] at hal2
              exact Bool.noConfusion hal2
            · intro hp2
              rw [hr] at hp2
              exact Option.noConfusion hp2
          · simp only [hdc, Bool.false_eq_true, if_false]
            cases hlc : alookup s.lastCmd (Purpose.playback, kid) with
            | none =>
              refine ⟨?_, ?_, ?_⟩
              · intro p2 _ _ _ dc2 hdc2 _
                rw [hb] at hdc2
                have he2 : dc = dc2 := Option.some.inj hdc2
                show alookup (aupsert s.lastCmd (Purpose.playback, kid) dc)
                  (Purpose.playback, kid) = some dc2
                rw [alookup_aupsert, if_pos rfl, he2]
              · intro p2 hp2 hal2
                rw [hr] at hp2
                have he : p = p2 := Option.some.inj hp2
                rw [← he, hal] at hal2
                exact Bool.noConfusion hal2
              · intro hp2
                rw [hr] at hp2
                exact Option.noConfusion hp2
            | some lc =>
              by_cases hlcE : lc.isEmpty = true
              · simp only [hlcE, if_true]
                refine ⟨?_, ?_, ?_⟩
                · intro p2 _ _ _ dc2 hdc2 _
                  rw [hb] at hdc2
                  have he2 : dc = dc2 := Option.some.inj hdc2
                  show alookup (aupsert s.lastCmd (Purpose.playback, kid) dc)
                    (Purpose.playback, kid) = some dc2
                  rw [alookup_aupsert, if_pos rfl, he2]
                · intro p2 hp2 hal2
                  rw [hr] at hp2
                  have he : p = p2 := Option.some.inj hp2
                  rw [← he, hal] at hal2
                  exact Bool.noConfusion hal2
                · intro hp2
                  rw [hr] at hp2
                  exact Option.noConfusion hp2
              · simp only [hlcE, Bool.false_eq_true, if_false]
                by_cases heq : dc = lc
                · rw [if_pos heq]
                  refine ⟨?_, ?_, ?_⟩
                  · intro p2 _ _ _ dc2 hdc2 _
                    rw [hb] at hdc2
                    have he2 : dc = dc2 := Option.some.inj hdc2
                    rw [hlc, ← heq, he2]
                  · intro p2 hp2 hal2
                    rw [hr] at hp2
                    have he : p = p2 := Option.some.inj hp2
                    rw [← he, hal] at hal2
                    exact Bool.noConfusion hal2
                  · intro hp2
                    rw [hr] at hp2
                    exact Option.noConfusion hp2
                · rw [if_neg heq]
                  rw [startFresh_build_some chans segs now st _ _ _ dc hb]
                  exact goodKey_after_spawn chans segs now st (Purpose.playback, kid)
                    (aerase s.running (Purpose.playback, kid)) s.lastCmd s.nextPid
                    (s.nextPid + 1) dc hb

/-- A start-loop iteration for key `k` does not change the running/lastCmd
entries of any other key. -/
theorem startStep_lookup_ne (chans : List Channel) (segs : List SegmentFile)
    (now : LocalDT) (st : Settings) (s : EnfState) (es : List Event)
    (k k2 : JobKey) (hk : k2 ≠ k) :
    alookup (startStep chans segs now st (s, es) k).1.running k2 = alookup s.running k2 ∧
    alookup (startStep chans segs now st (s, es) k).1.lastCmd k2 = alookup s.lastCmd k2 := by
  have hfresh : ∀ (s2 : EnfState) (es2 : List Event),
      alookup (startFresh chans segs now st s2 es2 k).1.running k2 = alookup s2.running k2 ∧
      alookup (startFresh chans segs now st s2 es2 k).1.lastCmd k2 = alookup s2.lastCmd k2 := by
    intro s2 es2
    cases hb : buildCmdOpt chans segs now st k with
    | none =>
      rw [startFresh_build_none chans segs now st s2 es2 k hb]
      exact ⟨rfl, rfl⟩
    | some cmd =>
      rw [startFresh_build_some chans segs now st s2 es2 k cmd hb]
      constructor
      · show alookup (aupsert s2.running k ⟨s2.nextPid, true⟩) k2 = alookup s2.running k2
        rw [alookup_aupsert, if_neg (fun h => hk h.symm)]
      · show alookup (aupsert s2.lastCmd k cmd) k2 = alookup s2.lastCmd k2
        rw [alookup_aupsert, if_neg (fun h => hk h.symm)]
  unfold startStep
  cases hr : alookup s.running k with
  | none =>
    simp only [hr]
    exact hfresh s es
  | some p =>
    cases hal : p.alive with
    | false =>
      simp only [hr, hal, Bool.false_eq_true, if_false]
      exact hfresh s es
    | true =>
      simp only [hr, hal, if_true]
      obtain ⟨kp, kid⟩ := k
      cases kp with
      | record => exact ⟨rfl, rfl⟩
      | playback =>
        cases hb : buildCmdOpt chans segs now st (Purpose.playback, kid) with
        | none => exact ⟨rfl, rfl⟩
        | some dc =>
          by_cases hdc : dc.isEmpty = true
          · simp only [hdc, if_true]
            exact ⟨by trivial, by trivial⟩
          · simp only [hdc, Bool.false_eq_true, if_false]
            cases hlc : alookup s.lastCmd (Purpose.playback, kid) with
            | none =>
              refine ⟨by trivial, ?_⟩
              show alookup (aupsert s.lastCmd (Purpose.playback, kid) dc) k2
                = alookup s.lastCmd k2
              rw [alookup_aupsert, if_neg (fun h => hk h.symm)]
            | some lc =>
              by_cases hlcE : lc.isEmpty = true
              · simp only [hlcE, if_true]
                refine ⟨by trivial, ?_⟩
                show alookup (aupsert s.lastCmd (Purpose.playback, kid) dc) k2
                  = alookup s.lastCmd k2
                rw [alookup_aupsert, if_neg (fun h => hk h.symm)]
              · simp only [hlcE, Bool.false_eq_true, if_false]
                by_cases heq : dc = lc
                · rw [if_pos heq]
                  exact ⟨rfl, rfl⟩
                · rw [if_neg heq]
                  have h2 := hfresh
                    { s with running := aerase s.running (Purpose.playback, kid) }
                    (es ++ [Event.termEv (Purpose.playback, kid)])
                  refine ⟨?_, h2.2⟩
                  rw [h2.1]
                  exact alookup_aerase_ne s.running (Purpose.playback, kid) k2
                    (fun h => hk h.symm)

/-- Quiescence only depends on a key's own lookups. -/
theorem goodKey_congr (chans : List Channel) (segs : List SegmentFile)
    (now : LocalDT) (st : Settings) (k : JobKey) (s1 s2 : EnfState)
    (hrun : alookup s2.running k = alookup s1.running k)
    (hlast : alookup s2.lastCmd k = alookup s1.lastCmd k)
    (h : GoodKey chans segs now st k s1) : GoodKey chans segs now st k s2 := by
  obtain ⟨h1, h2, h3⟩ := h
  refine ⟨?_, ?_, ?_⟩
  · intro p hp hal hk1 dc hdc hne
    rw [hrun] at hp
    rw [hlast]
    exact h1 p hp hal hk1 dc hdc hne
  · intro p hp hal
    rw [hrun] at hp
    exact h2 p hp hal
  · intro hp
    rw [hrun] at hp
    exact h3 hp

/-- The start loop leaves the entries of keys it does not process unchanged. -/
theorem fold_lookup_ne (chans : List Channel) (segs : List SegmentFile)
    (now : LocalDT) (st : Settings) (ds : List (JobKey × String)) (k : JobKey) :
    ∀ (s : EnfState) (es : List Event), (∀ kd ∈ ds, kd.1 ≠ k) →
      alookup ((ds.foldl (fun acc kd => startStep chans segs now st acc kd.1) (s, es)).1).running k
          = alookup s.running k ∧
      alookup ((ds.foldl (fun acc kd => startStep chans segs now st acc kd.1) (s, es)).1).lastCmd k
          = alookup s.lastCmd k := by
  induction ds with
  | nil =>
    intro s es _
    exact ⟨rfl, rfl⟩
  | cons kd0 t ih =>
    intro s es h
    rw [List.foldl_cons]
    have hne : k ≠ kd0.1 := fun hcon => h kd0 (List.mem_cons_self _ _) hcon.symm
    cases hS : startStep chans segs now st (s, es) kd0.1 with
    | mk s1 es1 =>
      have hstep := startStep_lookup_ne chans segs now st s es kd0.1 k hne
      rw [hS] at hstep
      have hrest := ih s1 es1 (fun kd2 hkd2 => h kd2 (List.mem_cons_of_mem _ hkd2))
      exact ⟨hrest.1.trans hstep.1, hrest.2.trans hstep.2⟩

/-- After the start loop every desired key is quiescent. -/
theorem fold_good (chans : List Channel) (segs : List SegmentFile)
    (now : LocalDT) (st : Settings) (ds : List (JobKey × String)) :
    ∀ (s : EnfState) (es : List Event), (ds.map Prod.fst).Nodup →
      ∀ kd ∈ ds, GoodKey chans segs now st kd.1
        ((ds.foldl (fun acc kd => startStep chans segs now st acc kd.1) (s, es)).1) := by
  induction ds with
  | nil =>
    intro s es _ kd hkd
    cases hkd
  | cons kd0 t ih =>
    intro s es hnd kd hkd
    rw [List.foldl_cons]
    cases hS : startStep chans segs now st (s, es) kd0.1 with
    | mk s1 es1 =>
      rcases List.mem_cons.mp hkd with hkd2 | hkd2
      · subst hkd2
        have hgood : GoodKey chans segs now st kd.1 s1 := by
          have hg := startStep_good chans segs now st s es kd.1
          rw [hS] at hg
          exact hg
        have hnotin : ∀ kd2 ∈ t, kd2.1 ≠ kd.1 := by
          intro kd2 hkd3 hcon
          simp only [List.map_cons, List.nodup_cons] at hnd
          exact hnd.1 (by rw [← hcon]; exact List.mem_map_of_mem _ hkd3)
        have hlook := fold_lookup_ne chans segs now st t kd.1 s1 es1 hnotin
        exact goodKey_congr chans segs now st kd.1 s1 _ hlook.1 hlook.2 hgood
      · have hnd2 : (t.map Prod.fst).Nodup := by
          simp only [List.map_cons, List.nodup_cons] at hnd
          exact hnd.2
        exact ih s1 es1 hnd2 kd hkd2

/-- A start loop over quiescent keys is the identity. -/
theorem fold_id (chans : List Channel) (segs : List SegmentFile)
    (now : LocalDT) (st : Settings) (ds : List (JobKey × String)) (s : EnfState)
    (es : List Event) (h : ∀ kd ∈ ds, GoodKey chans segs now st kd.1 s) :
    ds.foldl (fun acc kd => startStep chans segs now st acc kd.1) (s, es) = (s, es) := by
  induction ds with
  | nil => rfl
  | cons kd0 t ih =>
    rw [List.foldl_cons,
      startStep_eq_of_good chans segs now st kd0.1 s (h kd0 (List.mem_cons_self _ _)) es]
    exact ih (fun kd hkd => h kd (List.mem_cons_of_mem _ hkd))

/-- Filtering an association list with a predicate that holds on every entry
of key `k` does not change `k`'s lookup. -/
theorem alookup_filter_keep [DecidableEq α] (l : List (α × β)) (p : α × β → Bool) (k : α)
    (h : ∀ v, (k, v) ∈ l → p (k, v) = true) :
    alookup (l.filter p) k = alookup l k := by
  induction l with
  | nil => rfl
  | cons kv t ih =>
    obtain ⟨k2, v2⟩ := kv
    have ih2 := ih (fun v hv => h v (List.mem_cons_of_mem _ hv))
    by_cases hk2 : k2 = k
    · subst hk2
      have hp : p (k2, v2) = true := h v2 (List.mem_cons_self _ _)
      rw [List.filter_cons, if_pos hp]
      show (if k2 = k2 then some v2 else alookup (t.filter p) k2)
        = (if k2 = k2 then some v2 else alookup t k2)
      rw [if_pos rfl, if_pos rfl]
    · rw [List.filter_cons]
      by_cases hp : p (k2, v2) = true
      · rw [if_pos hp]
        show (if k2 = k then some v2 else alookup (t.filter p) k)
          = (if k2 = k then some v2 else alookup t k)
        rw [if_neg hk2, if_neg hk2]
        exact ih2
      · rw [if_neg hp]
        show alookup (t.filter p) k = (if k2 = k then some v2 else alookup t k)
        rw [if_neg hk2]
        exact ih2


theorem contains_of_mem [BEq α] [LawfulBEq α] {l : List α} {a : α} (h : a ∈ l) :
    l.contains a = true :=
  List.elem_iff.mpr h

/-- The running table after a tick (definitional unfolding of `tickEnforcer`). -/
theorem tickEnforcer_running (channelsAll : List Channel) (segs : List SegmentFile)
    (now : LocalDT) (st : Settings) (s0 : EnfState) :
    (tickEnforcer channelsAll segs now st s0).1.running
      = ((tickFold channelsAll segs now st s0).1).running.filter
          (fun kp =>
            ((computeDesired (enabledChans channelsAll) now).map Prod.fst).contains kp.1) := rfl

/-- The recorded-vector table after a tick (definitional). -/
theorem tickEnforcer_lastCmd (channelsAll : List Channel) (segs : List SegmentFile)
    (now : LocalDT) (st : Settings) (s0 : EnfState) :
    (tickEnforcer channelsAll segs now st s0).1.lastCmd
      = ((tickFold channelsAll segs now st s0).1).lastCmd := rfl

/-- The state after a tick, in terms of the start-loop fold (definitional). -/
theorem tickEnforcer_state (channelsAll : List Channel) (segs : List SegmentFile)
    (now : LocalDT) (st : Settings) (s0 : EnfState) :
    (tickEnforcer channelsAll segs now st s0).1
      = { running := ((tickFold channelsAll segs now st s0).1).running.filter
            (fun kp =>
              ((computeDesired (enabledChans channelsAll) now).map Prod.fst).contains kp.1),
          lastCmd := ((tickFold channelsAll segs now st s0).1).lastCmd,
          nextPid := ((tickFold channelsAll segs now st s0).1).nextPid } := rfl

/-- The events of a tick, in terms of the start-loop fold (definitional). -/
theorem tickEnforcer_events (channelsAll : List Channel) (segs : List SegmentFile)
    (now : LocalDT) (st : Settings) (s0 : EnfState) :
    (tickEnforcer channelsAll segs now st s0).2
      = (tickFold channelsAll segs now st s0).2
          ++ (((tickFold channelsAll segs now st s0).1).running.filter
              (fun kp =>
                !((computeDesired (enabledChans channelsAll) now).map Prod.fst).contains kp.1
                  && kp.2.alive)).map (fun kp => Event.termEv kp.1) := rfl

/-- After one tick, every desired key is quiescent and every tracked process
belongs to a desired key. -/
theorem tick_post (channelsAll : List Channel) (segs : List SegmentFile)
    (now : LocalDT) (st : Settings) (s0 : EnfState) :
    (∀ kd ∈ computeDesired (enabledChans channelsAll) now,
      GoodKey (enabledChans channelsAll) segs now st kd.1
        (tickEnforcer channelsAll segs now st s0).1) ∧
    (∀ kp ∈ (tickEnforcer channelsAll segs now st s0).1.running,
      (((computeDesired (enabledChans channelsAll) now).map Prod.fst).contains kp.1) = true) := by
  constructor
  · intro kd hkd
    have hgood : GoodKey (enabledChans channelsAll) segs now st kd.1
        ((tickFold channelsAll segs now st s0).1) :=
      fold_good (enabledChans channelsAll) segs now st
        (computeDesired (enabledChans channelsAll) now) s0 []
        (nodup_keys_computeDesired _ _) kd hkd
    refine goodKey_congr _ _ _ _ _ ((tickFold channelsAll segs now st s0).1) _ ?_ ?_ hgood
    · rw [tickEnforcer_running]
      exact alookup_filter_keep _ _ _
        (fun v _ => contains_of_mem (List.mem_map_of_mem Prod.fst hkd))
    · rw [tickEnforcer_lastCmd]
  · intro kp hkp
    rw [tickEnforcer_running] at hkp
    exact (List.mem_filter.mp hkp).2

/-- A tick from a state where every desired key is quiescent and every
tracked process is desired changes nothing and performs no process action. -/
theorem tick_quiescent (channelsAll : List Channel) (segs : List SegmentFile)
    (now : LocalDT) (st : Settings) (s1 : EnfState)
    (hgood : ∀ kd ∈ computeDesired (enabledChans channelsAll) now,
      GoodKey (enabledChans channelsAll) segs now st kd.1 s1)
    (hrun : ∀ kp ∈ s1.running,
      (((computeDesired (enabledChans channelsAll) now).map Prod.fst).contains kp.1) = true) :
    tickEnforcer channelsAll segs now st s1 = (s1, []) := by
  have htf : tickFold channelsAll segs now st s1 = (s1, []) :=
    fold_id (enabledChans channelsAll) segs now st
      (computeDesired (enabledChans channelsAll) now) s1 [] hgood
  have hkeep : s1.running.filter
      (fun kp =>
        ((computeDesired (enabledChans channelsAll) now).map Prod.fst).contains kp.1)
      = s1.running :=
    List.filter_eq_self.mpr (fun kp hkp => hrun kp hkp)
  have hstop : s1.running.filter
      (fun kp =>
        !((computeDesired (enabledChans channelsAll) now).map Prod.fst).contains kp.1
          && kp.2.alive) = [] := by
    rw [List.filter_eq_nil_iff]
    intro kp hkp
    rw [hrun kp hkp]
    simp
  have htf1 : (tickFold channelsAll segs now st s1).1 = s1 := congrArg Prod.fst htf
  have htf2 : (tickFold channelsAll segs now st s1).2 = ([] : List Event) :=
    congrArg Prod.snd htf
  have h1 : (tickEnforcer channelsAll segs now st s1).1 = s1 := by
    rw [tickEnforcer_state, htf1, hkeep]
  have h2 : (tickEnforcer channelsAll segs now st s1).2 = [] := by
    rw [tickEnforcer_events, htf1, htf2, hstop]
    rfl
  exact Prod.ext_iff.mpr ⟨h1, h2⟩

/-! ## Claim C9: tick idempotence -/

/-- Claim C9: with a fixed snapshot (channels, segment index, settings) and
instant — and no external process exits between ticks — the tick after any
tick performs no spawn or terminate action and leaves the running-job table
and the recorded argument vectors (the whole enforcer state) unchanged. -/
theorem claim_C9_tick_idempotent (channelsAll : List Channel) (segs : List SegmentFile)
    (now : LocalDT) (st : Settings) (s0 : EnfState) :
    tickEnforcer channelsAll segs now st (tickEnforcer channelsAll segs now st s0).1
      = ((tickEnforcer channelsAll segs now st s0).1, []) := by
  have hpost := tick_post channelsAll segs now st s0
  exact tick_quiescent channelsAll segs now st _ hpost.1 hpost.2

/-! ## Claim C10 machinery: evaluating concrete ticks -/

theorem alookup_cons_self [DecidableEq α] (k : α) (v : β) (t : List (α × β)) :
    alookup ((k, v) :: t) k = some v := by
  simp [alookup]

theorem aerase_cons_self [DecidableEq α] (k : α) (v : β) (t : List (α × β)) :
    aerase ((k, v) :: t) k = t := by
  simp [aerase]

theorem enabled_of_active (c : Channel) (now : LocalDT)
    (h : c.is_active_now now = true) : c.enabled = true := by
  cases he : c.enabled
  · unfold Channel.is_active_now at h
    rw [he] at h
    simp at h
  · rfl

theorem enabledChans_single (c : Channel) (h : c.enabled = true) :
    enabledChans [c] = [c] := by
  simp [enabledChans, h]

/-- A single active UDP-output channel desires exactly its live playback job. -/
theorem computeDesired_single_live (c : Channel) (now : LocalDT)
    (hact : c.is_active_now now = true) (hudp : hasUdpOut c = true) :
    computeDesired [c] now
      = [((Purpose.playback, c.id), c.name ++ " [LIVE playback]")] := by
  show desireChannel now [] c = _
  rw [desireChannel_eq, if_pos (by rw [hact, hudp]; rfl)]
  rfl

theorem buildCmdOpt_single (c : Channel) (segs : List SegmentFile) (now : LocalDT)
    (st : Settings) (cmd : List String)
    (hb : buildCommand c Purpose.playback segs now st = Except.ok cmd) :
    buildCmdOpt [c] segs now st (Purpose.playback, c.id) = some cmd := by
  unfold buildCmdOpt
  rw [List.find?_cons_of_pos _ (by simp)]
  show (match buildCommand c Purpose.playback segs now st with
    | Except.ok cmd => some cmd
    | Except.error _ => none) = some cmd
  rw [hb]

theorem buildCommand_playback_ok_ne_nil (c : Channel) (segs : List SegmentFile)
    (now : LocalDT) (st : Settings) (cmd : List String)
    (hb : buildCommand c Purpose.playback segs now st = Except.ok cmd) : cmd ≠ [] := by
  rw [buildCommand_playback_live] at hb
  split at hb
  · cases hb
  · have he := Except.ok.inj hb
    intro hcon
    rw [hcon] at he
    simp [ffmpegBase] at he

theorem isEmpty_false_of_ne_nil {l : List α} (h : l ≠ []) : l.isEmpty = false := by
  cases he : l.isEmpty
  · rfl
  · exact absurd (List.isEmpty_iff.mp he) h

theorem tickEnforcer_nextPid (channelsAll : List Channel) (segs : List SegmentFile)
    (now : LocalDT) (st : Settings) (s0 : EnfState) :
    (tickEnforcer channelsAll segs now st s0).1.nextPid
      = ((tickFold channelsAll segs now st s0).1).nextPid := rfl

theorem enfState_ext {s1 s2 : EnfState} (h1 : s1.running = s2.running)
    (h2 : s1.lastCmd = s2.lastCmd) (h3 : s1.nextPid = s2.nextPid) : s1 = s2 := by
  cases s1
  cases s2
  cases h1
  cases h2
  cases h3
  rfl

/-! ## Claim C10: output-target drift -/

/-- Claim C10: starting from nothing running, one tick spawns the playback job
for an active UDP-output channel; if the channel's output target is then
changed so that the built playback command differs, the next tick performs
exactly one terminate followed by one spawn (with the new vector) for that
channel's playback job and nothing else — in particular no record job is
touched (none exists: record jobs are never desired).  And when a playback
job's vector is observed with a live process but no previously recorded
vector, the vector is recorded without any terminate or spawn. -/
theorem claim_C10_output_drift (cA cB : Channel) (segs : List SegmentFile)
    (now : LocalDT) (st : Settings) (cmdA cmdB : List String)
    (hActA : cA.is_active_now now = true) (hUdpA : hasUdpOut cA = true)
    (hActB : cB.is_active_now now = true) (hUdpB : hasUdpOut cB = true)
    (hid : cB.id = cA.id)
    (hbA : buildCommand cA Purpose.playback segs now st = Except.ok cmdA)
    (hbB : buildCommand cB Purpose.playback segs now st = Except.ok cmdB)
    (hne : cmdB ≠ cmdA) :
    (tickEnforcer [cB] segs now st
        (tickEnforcer [cA] segs now st ⟨[], [], 0⟩).1).2
      = [Event.termEv (Purpose.playback, cA.id),
         Event.spawnEv (Purpose.playback, cA.id) cmdB] ∧
    (∀ p : Proc, p.alive = true →
      tickEnforcer [cA] segs now st ⟨[((Purpose.playback, cA.id), p)], [], 7⟩
        = (⟨[((Purpose.playback, cA.id), p)],
            [((Purpose.playback, cA.id), cmdA)], 7⟩, [])) := by
  have heA : enabledChans [cA] = [cA] := enabledChans_single cA (enabled_of_active cA now hActA)
  have heB : enabledChans [cB] = [cB] := enabledChans_single cB (enabled_of_active cB now hActB)
  have hdA : computeDesired [cA] now
      = [((Purpose.playback, cA.id), cA.name ++ " [LIVE playback]")] :=
    computeDesired_single_live cA now hActA hUdpA
  have hdB : computeDesired [cB] now
      = [((Purpose.playback, cA.id), cB.name ++ " [LIVE playback]")] := by
    rw [computeDesired_single_live cB now hActB hUdpB, hid]
  have hoA : buildCmdOpt [cA] segs now st (Purpose.playback, cA.id) = some cmdA :=
    buildCmdOpt_single cA segs now st cmdA hbA
  have hoB : buildCmdOpt [cB] segs now st (Purpose.playback, cA.id) = some cmdB := by
    rw [← hid]
    exact buildCmdOpt_single cB segs now st cmdB hbB
  have hAne : cmdA ≠ [] := buildCommand_playback_ok_ne_nil cA segs now st cmdA hbA
  have hBne : cmdB ≠ [] := buildCommand_playback_ok_ne_nil cB segs now st cmdB hbB
  have hAemp : cmdA.isEmpty = false := isEmpty_false_of_ne_nil hAne
  have hBemp : cmdB.isEmpty = false := isEmpty_false_of_ne_nil hBne
  have hcont : ([(Purpose.playback, cA.id)] : List JobKey).contains (Purpose.playback, cA.id)
      = true := contains_of_mem (List.mem_singleton_self _)
  have hstep1 : startStep [cA] segs now st ((⟨[], [], 0⟩ : EnfState), ([] : List Event))
      (Purpose.playback, cA.id)
      = (⟨[((Purpose.playback, cA.id), ⟨0, true⟩)], [((Purpose.playback, cA.id), cmdA)], 1⟩,
         [Event.spawnEv (Purpose.playback, cA.id) cmdA]) := by
    show startFresh [cA] segs now st ⟨[], [], 0⟩ [] (Purpose.playback, cA.id) = _
    rw [startFresh_build_some [cA] segs now st ⟨[], [], 0⟩ [] (Purpose.playback, cA.id) cmdA hoA]
    rfl
  have hfold1 : tickFold [cA] segs now st ⟨[], [], 0⟩
      = (⟨[((Purpose.playback, cA.id), ⟨0, true⟩)], [((Purpose.playback, cA.id), cmdA)], 1⟩,
         [Event.spawnEv (Purpose.playback, cA.id) cmdA]) := by
    unfold tickFold
    rw [heA, hdA, List.foldl_cons, hstep1]
    rfl
  have hrun1 : (tickEnforcer [cA] segs now st ⟨[], [], 0⟩).1.running
      = [((Purpose.playback, cA.id), ⟨0, true⟩)] := by
    rw [tickEnforcer_running, heA, hdA, hfold1]
    show List.filter (fun kp => ([(Purpose.playback, cA.id)] : List JobKey).contains kp.1)
        [((Purpose.playback, cA.id), (⟨0, true⟩ : Proc))] = _
    rw [List.filter_cons_of_pos (by exact hcont)]
    rfl
  have hlc1 : (tickEnforcer [cA] segs now st ⟨[], [], 0⟩).1.lastCmd
      = [((Purpose.playback, cA.id), cmdA)] := by
    rw [tickEnforcer_lastCmd, hfold1]
  have hnp1 : (tickEnforcer [cA] segs now st ⟨[], [], 0⟩).1.nextPid = 1 := by
    rw [tickEnforcer_nextPid, hfold1]
  have hs1 : (tickEnforcer [cA] segs now st ⟨[], [], 0⟩).1
      = ⟨[((Purpose.playback, cA.id), ⟨0, true⟩)], [((Purpose.playback, cA.id), cmdA)], 1⟩ :=
    enfState_ext hrun1 hlc1 hnp1
  have hstep2 : startStep [cB] segs now st
      ((⟨[((Purpose.playback, cA.id), ⟨0, true⟩)],
        [((Purpose.playback, cA.id), cmdA)], 1⟩ : EnfState), ([] : List Event))
      (Purpose.playback, cA.id)
      = (⟨[((Purpose.playback, cA.id), ⟨1, true⟩)], [((Purpose.playback, cA.id), cmdB)], 2⟩,
         [Event.termEv (Purpose.playback, cA.id),
          Event.spawnEv (Purpose.playback, cA.id) cmdB]) := by
    unfold startStep
    simp only [alookup_cons_self, hoB, hBemp, hAemp, Bool.false_eq_true, if_false,
      if_neg hne, if_true]
    rw [startFresh_build_some [cB] segs now st _ _ _ cmdB hoB]
    rw [aerase_cons_self, aupsert_cons_self]
    rfl
  have hfold2 : tickFold [cB] segs now st
      ⟨[((Purpose.playback, cA.id), ⟨0, true⟩)], [((Purpose.playback, cA.id), cmdA)], 1⟩
      = (⟨[((Purpose.playback, cA.id), ⟨1, true⟩)], [((Purpose.playback, cA.id), cmdB)], 2⟩,
         [Event.termEv (Purpose.playback, cA.id),
          Event.spawnEv (Purpose.playback, cA.id) cmdB]) := by
    unfold tickFold
    rw [heB, hdB, List.foldl_cons, hstep2]
    rfl
  constructor
  · rw [hs1, tickEnforcer_events, heB, hdB, hfold2]
    show ([Event.termEv (Purpose.playback, cA.id),
        Event.spawnEv (Purpose.playback, cA.id) cmdB])
        ++ List.map (fun kp => Event.termEv kp.1)
          (List.filter
            (fun kp => !([(Purpose.playback, cA.id)] : List JobKey).contains kp.1 && kp.2.alive)
            [((Purpose.playback, cA.id), (⟨1, true⟩ : Proc))]) = _
    rw [List.filter_cons_of_neg (by rw [hcont]; simp)]
    rfl
  · intro p hp
    have hstep3 : startStep [cA] segs now st
        ((⟨[((Purpose.playback, cA.id), p)], [], 7⟩ : EnfState), ([] : List Event))
        (Purpose.playback, cA.id)
        = (⟨[((Purpose.playback, cA.id), p)], [((Purpose.playback, cA.id), cmdA)], 7⟩,
           []) := by
      unfold startStep
      simp only [alookup_cons_self, hp, hoA, hAemp, Bool.false_eq_true, if_false, if_true]
      rfl
    have hfold3 : tickFold [cA] segs now st ⟨[((Purpose.playback, cA.id), p)], [], 7⟩
        = (⟨[((Purpose.playback, cA.id), p)], [((Purpose.playback, cA.id), cmdA)], 7⟩,
           []) := by
      unfold tickFold
      rw [heA, hdA, List.foldl_cons, hstep3]
      rfl
    have hrun3 : (tickEnforcer [cA] segs now st
        ⟨[((Purpose.playback, cA.id), p)], [], 7⟩).1.running
        = [((Purpose.playback, cA.id), p)] := by
      rw [tickEnforcer_running, heA, hdA, hfold3]
      show List.filter (fun kp => ([(Purpose.playback, cA.id)] : List JobKey).contains kp.1)
          [((Purpose.playback, cA.id), p)] = _
      rw [List.filter_cons_of_pos (by exact hcont)]
      rfl
    have hlc3 : (tickEnforcer [cA] segs now st
        ⟨[((Purpose.playback, cA.id), p)], [], 7⟩).1.lastCmd
        = [((Purpose.playback, cA.id), cmdA)] := by
      rw [tickEnforcer_lastCmd, hfold3]
    have hnp3 : (tickEnforcer [cA] segs now st
        ⟨[((Purpose.playback, cA.id), p)], [], 7⟩).1.nextPid = 7 := by
      rw [tickEnforcer_nextPid, hfold3]
    have hev3 : (tickEnforcer [cA] segs now st
        ⟨[((Purpose.playback, cA.id), p)], [], 7⟩).2 = [] := by
      rw [tickEnforcer_events, heA, hdA, hfold3]
      show ([] : List Event)
          ++ List.map (fun kp => Event.termEv kp.1)
            (List.filter
              (fun kp =>
                !([(Purpose.playback, cA.id)] : List JobKey).contains kp.1 && kp.2.alive)
              [((Purpose.playback, cA.id), p)]) = _
      rw [List.filter_cons_of_neg (by rw [hcont]; simp)]
      rfl
    exact Prod.ext_iff.mpr ⟨enfState_ext hrun3 hlc3 hnp3, hev3⟩

/-- Closed instance of C10: changing `chanA`'s output target to `chanB`'s
produces exactly one terminate followed by one spawn for the playback job. -/
theorem claim_C10_output_drift_witness :
    (tickEnforcer [chanB] [] tMid stEx (tickEnforcer [chanA] [] tMid stEx ⟨[], [], 0⟩).1).2
      = [Event.termEv (Purpose.playback, 1), Event.spawnEv (Purpose.playback, 1) cmdBx] := by
  have h := claim_C10_output_drift chanA chanB [] tMid stEx cmdAx cmdBx
    (by decide) (by decide) (by decide) (by decide) (by decide)
    rfl rfl (by decide)
  exact h.1
